import Mathlib

/-!
Shallow embedding of the module orchestration core of a Node.js modular
application framework (file src/core/src/modules.js): module registration,
dependency-ordered module startup with lifecycle hooks, service
publication, and reverse-order shutdown.

Module callbacks (initialize, routes, shutdown, lifecycle hooks) are
modelled by their observable outcome: `some true` means the callback is
present and succeeds, `some false` means it is present and throws, `none`
means it is absent.  Execution is recorded in an explicit event trace, and
the recursive startup walk is fuel-indexed, because the JavaScript
original has no cycle guard and diverges on dependency cycles; running
out of fuel models that nontermination.
-/

namespace ModSys

/-- Association-list lookup, mirroring JavaScript string-keyed object
property access `obj[key]` (objects preserve insertion order for string
keys). -/
def lookupA {α : Type} (k : String) : List (String × α) → Option α
  | [] => none
  | (k', v) :: rest => if k' = k then some v else lookupA k rest

/-- Association-list update, mirroring `obj[key] = v`. -/
def setA {α : Type} (k : String) (v : α) : List (String × α) → List (String × α)
  | [] => [(k, v)]
  | (k', v') :: rest => if k' = k then (k, v) :: rest else (k', v') :: setA k v rest

/-- Truthiness of an optional string-valued JavaScript field, as tested by
`!x`: an absent field and the empty string are falsy. -/
def truthyStr : Option String → Bool
  | none => false
  | some s => s != ""

/-- Module definition record.  Fields mirror the JavaScript module object;
`initFn` stands for the module's `initialize` callback and `routes` for
its route-mounting callback, each abstracted to its observable outcome
(`some true` = present and succeeds, `some false` = present and throws,
`none` = absent); `dependencies` is `none` when the field is absent or not
an array; `services` is the published service table, with service values
abstracted as numbers. -/
structure ModuleDef where
  id : Option String := none
  name : Option String := none
  displayName : Option String := none
  dependencies : Option (List String) := none
  initFn : Option Bool := none
  routes : Option Bool := none
  services : Option (List (String × Nat)) := none
  shutdown : Option Bool := none
deriving Repr, DecidableEq

inductive RegError
  | invalidName
  | invalidModule
deriving Repr, DecidableEq

/-- Embeds `registerModule(name, module)`: rejects an empty name, then a
definition lacking the truthy identity fields `module.id` and
`module.name`; on a duplicate name it warns and returns the existing
definition unchanged; otherwise it appends the new entry.  The Boolean in
the result records whether the duplicate-name warning fired. -/
def registerModule (name : String) (m : ModuleDef) (reg : List (String × ModuleDef)) :
    Except RegError (ModuleDef × List (String × ModuleDef) × Bool) :=
  if name = "" then .error .invalidName
  else if !truthyStr m.id || !truthyStr m.name then .error .invalidModule
  else
    match lookupA name reg with
    | some existing => .ok (existing, reg, true)
    | none => .ok (m, reg ++ [(name, m)], false)

/-- Embeds `getModule(name)`. -/
def getModule (name : String) (reg : List (String × ModuleDef)) : Option ModuleDef :=
  lookupA name reg

/-- Result of the `getService` accessor: a JavaScript `undefined`, the
whole services object of a module, or one service value. -/
inductive SvcVal
  | undefinedV
  | whole (s : List (String × Nat))
  | single (v : Nat)
deriving Repr, DecidableEq

/-- Embeds the `getService(moduleName, serviceName)` accessor closed over
`context.services`.  A JavaScript `undefined` result is `SvcVal.undefinedV`;
note that both an absent `serviceName` argument and the falsy empty
string select the whole services object (`serviceName ? ... : ...`). -/
def ctxGetService (services : List (String × List (String × Nat)))
    (moduleName : String) (serviceName : Option String) : SvcVal :=
  match lookupA moduleName services with
  | none => .undefinedV
  | some ms =>
    match serviceName with
    | none => .whole ms
    | some sn =>
      if sn = "" then .whole ms
      else
        match lookupA sn ms with
        | some v => .single v
        | none => .undefinedV

/-- Observable execution events, recorded in order: lifecycle hook
invocations (with the `moduleName` decoration and the hook's index in its
event list), invocations of a module's `initialize` and `routes`
callbacks, service publication, addition to the Initialized Set, and the
shutdown walk's callback invocations and caught per-module failures. -/
inductive Event
  | hookRun (event : String) (moduleName : Option String) (idx : Nat)
  | initRun (name : String)
  | routesRun (name : String)
  | svcPublished (name : String)
  | marked (name : String)
  | shutdownRun (name : String)
  | shutdownFailed (name : String)
deriving Repr, DecidableEq

/-- Kinds of raised errors: a missing module, an unregistered dependency
(`"${dep}" required by "${name}"`), a throwing `initialize` or `routes`
callback, a throwing lifecycle hook, and the TypeError raised by the
shutdown walk when an initialised name has no registry entry. -/
inductive ErrKind
  | moduleNotFound (name : String)
  | unresolvedDep (dep requiredBy : String)
  | initFailed (name : String)
  | routesFailed (name : String)
  | hookFailed (event : String)
  | shutdownTypeError (name : String)
deriving Repr, DecidableEq

/-- A thrown JavaScript error: its kind plus the mutable `error.module`
property the catch block of `initializeModule` assigns. -/
structure JsError where
  kind : ErrKind
  moduleTag : Option String := none
deriving Repr, DecidableEq

/-- Outcome of a fuel-indexed run: normal return, a thrown error, or fuel
exhaustion (modelling the divergence of the guard-less recursion on a
dependency cycle). -/
inductive Res
  | ok
  | err (e : JsError)
  | fuelOut
deriving Repr, DecidableEq

/-- Behaviour of one registered lifecycle hook, abstracted to whether it
throws, as a function of the `moduleName` decoration it receives (`none`
for the global events). -/
def HookBeh : Type := Option String → Bool

/-- The fixed environment of a run: the module registry (`modules`), the
lifecycle hook registry, and whether a truthy `context.app` routing
capability was passed. -/
structure Env where
  modules : List (String × ModuleDef)
  hooks : List (String × List HookBeh)
  hasApp : Bool

def hooksOf (env : Env) (event : String) : List HookBeh :=
  (lookupA event env.hooks).getD []

/-- The mutable run state: the Initialized Set (as an insertion-ordered
duplicate-free list, like a JavaScript `Set`), the `context.services`
table, and the ghost event trace. -/
structure SysState where
  initialized : List String
  services : List (String × List (String × Nat))
  trace : List Event
deriving Repr, DecidableEq

/-- Embeds `triggerLifecycleHooks`: invoke the hooks of one event in
registration order, stopping at the first throw. -/
def runHooks (event : String) (mn : Option String) :
    List HookBeh → Nat → SysState → SysState × Option JsError
  | [], _, s => (s, none)
  | h :: rest, idx, s =>
    let s1 := { s with trace := s.trace ++ [Event.hookRun event mn idx] }
    if h mn then (s1, some { kind := .hookFailed event })
    else runHooks event mn rest (idx + 1) s1

def triggerLifecycleHooks (env : Env) (event : String) (mn : Option String) (s : SysState) :
    SysState × Option JsError :=
  runHooks event mn (hooksOf env event) 0 s

/-- Sequencing of fallible stateful steps inside the `try` block of
`initializeModule`: stop at the first thrown error. -/
def andThen (r : SysState × Option JsError) (f : SysState → SysState × Option JsError) :
    SysState × Option JsError :=
  match r with
  | (s, none) => f s
  | e => e

/-- The module's own `initialize` callback invocation (when present). -/
def stepInit (name : String) (m : ModuleDef) (s : SysState) : SysState × Option JsError :=
  match m.initFn with
  | none => (s, none)
  | some ok =>
    let s1 := { s with trace := s.trace ++ [Event.initRun name] }
    if ok then (s1, none) else (s1, some { kind := .initFailed name })

/-- Route mounting: `module.routes(context.app)`, run only when the
callback exists and `context.app` is truthy. -/
def stepRoutes (env : Env) (name : String) (m : ModuleDef) (s : SysState) :
    SysState × Option JsError :=
  match m.routes, env.hasApp with
  | some ok, true =>
    let s1 := { s with trace := s.trace ++ [Event.routesRun name] }
    if ok then (s1, none) else (s1, some { kind := .routesFailed name })
  | _, _ => (s, none)

/-- Service publication (`context.services[name] = module.services`)
followed by `initialized.add(name)` — a `Set.add`, hence a no-op on the
membership when the name is already present. -/
def stepSvcMark (name : String) (m : ModuleDef) (s : SysState) : SysState :=
  let s1 :=
    match m.services with
    | some svc =>
      { s with services := setA name svc s.services, trace := s.trace ++ [Event.svcPublished name] }
    | none => s
  if name ∈ s1.initialized then { s1 with trace := s1.trace ++ [Event.marked name] }
  else { s1 with initialized := s1.initialized ++ [name], trace := s1.trace ++ [Event.marked name] }

/-- The `try` block of `initializeModule`: beforeInit hooks, the module's
own `initialize` callback, route mounting, service publication, marking
as initialised, afterInit hooks.  Errors come back untagged; the caller
performs the catch block's `error.module = name`. -/
def runBody (env : Env) (name : String) (m : ModuleDef) (s : SysState) :
    SysState × Option JsError :=
  andThen (triggerLifecycleHooks env "beforeInit" (some name) s) fun s1 =>
  andThen (stepInit name m s1) fun s2 =>
  andThen (stepRoutes env name m s2) fun s3 =>
  triggerLifecycleHooks env "afterInit" (some name) (stepSvcMark name m s3)

/-- Embeds the recursive `initializeModule(name, context)` walk: skip if
already initialised, look the module up, resolve and recursively
initialise its declared dependencies in order (failing fast on an
unregistered one), then run the module's own initialisation body, tagging
any error thrown there with the module's name.  `fuel` bounds the
recursion depth; the JavaScript original has no cycle guard and diverges
on dependency cycles, reported here as `Res.fuelOut`. -/
def initModule (env : Env) : Nat → String → SysState → SysState × Res
  | 0, _, s => (s, .fuelOut)
  | fuel + 1, name, s =>
    if name ∈ s.initialized then (s, .ok)
    else
      match lookupA name env.modules with
      | none => (s, .err { kind := .moduleNotFound name })
      | some m =>
        match
          (m.dependencies.getD []).foldl
            (fun acc d =>
              match acc with
              | (s', Res.ok) =>
                match lookupA d env.modules with
                | none => (s', .err { kind := .unresolvedDep d name })
                | some _ => initModule env fuel d s'
              | other => other)
            (s, Res.ok)
        with
        | (s1, Res.ok) =>
          match runBody env name m s1 with
          | (s2, none) => (s2, .ok)
          | (s2, some e) => (s2, .err { e with moduleTag := some name })
        | other => other

/-- The dependency loop of `initializeModule`, written as explicit
recursion for reasoning; `initModule_deps_eq` below identifies it with
the fold inside `initModule`. -/
def initDeps (env : Env) (fuel : Nat) (curName : String) :
    List String → SysState → SysState × Res
  | [], s => (s, .ok)
  | d :: rest, s =>
    match lookupA d env.modules with
    | none => (s, .err { kind := .unresolvedDep d curName })
    | some _ =>
      match initModule env fuel d s with
      | (s1, Res.ok) => initDeps env fuel curName rest s1
      | other => other

/-- The `for (const name of Object.keys(modules))` loop of
`initializeModules`; the catch there logs and rethrows, so the error
passes through unchanged. -/
def initAllNames (env : Env) (fuel : Nat) : List String → SysState → SysState × Res
  | [], s => (s, .ok)
  | n :: rest, s =>
    match initModule env fuel n s with
    | (s1, Res.ok) => initAllNames env fuel rest s1
    | other => other

/-- Embeds `initializeModules(app, config)`: clear a stale Initialized
Set left over from a previous run, build a fresh context (empty services
table), fire the beforeAllInit hooks, walk every registered module in
registration order, fire the afterAllInit hooks, and return the context. -/
def initModules (env : Env) (fuel : Nat) (prevInitialized : List String) : SysState × Res :=
  let cleared := if prevInitialized.length > 0 then [] else prevInitialized
  let s0 : SysState := { initialized := cleared, services := [], trace := [] }
  match triggerLifecycleHooks env "beforeAllInit" none s0 with
  | (s1, some e) => (s1, .err e)
  | (s1, none) =>
    match initAllNames env fuel (env.modules.map Prod.fst) s1 with
    | (s2, Res.ok) =>
      match triggerLifecycleHooks env "afterAllInit" none s2 with
      | (s3, some e) => (s3, .err e)
      | (s3, none) => (s3, .ok)
    | other => other

/-- The reverse walk of `shutdownModules`: each module's `shutdown`
failure is caught (recorded as `Event.shutdownFailed`) and does not stop
the walk; an initialised name missing from the registry raises the
JavaScript TypeError of reading `.shutdown` on `undefined`, which is not
caught. -/
def shutdownLoop (env : Env) : List String → SysState → SysState × Option JsError
  | [], s => (s, none)
  | name :: rest, s =>
    match lookupA name env.modules with
    | none => (s, some { kind := .shutdownTypeError name })
    | some m =>
      match m.shutdown with
      | none => shutdownLoop env rest s
      | some ok =>
        let s1 := { s with trace := s.trace ++ [Event.shutdownRun name] }
        if ok then shutdownLoop env rest s1
        else shutdownLoop env rest { s1 with trace := s1.trace ++ [Event.shutdownFailed name] }

/-- Embeds `shutdownModules(context)`: beforeShutdown hooks, the walk
over the Initialized Set in reverse initialisation order, clearing of the
Initialized Set, afterShutdown hooks. -/
def shutdownModules (env : Env) (s : SysState) : SysState × Option JsError :=
  match triggerLifecycleHooks env "beforeShutdown" none s with
  | (s1, some e) => (s1, some e)
  | (s1, none) =>
    match shutdownLoop env s1.initialized.reverse s1 with
    | (s2, some e) => (s2, some e)
    | (s2, none) =>
      let s3 := { s2 with initialized := [] }
      triggerLifecycleHooks env "afterShutdown" none s3

/-- The module an event is about (`none` for global hook events). -/
def aboutName : Event → Option String
  | .hookRun _ mn _ => mn
  | .initRun n => some n
  | .routesRun n => some n
  | .svcPublished n => some n
  | .marked n => some n
  | .shutdownRun n => some n
  | .shutdownFailed n => some n

/-- A topological ranking witnessing that the registered dependency graph
has no cycles: every declared dependency of a registered module has
strictly smaller rank. -/
def Ranked (env : Env) (rank : String → Nat) : Prop :=
  ∀ n m, lookupA n env.modules = some m → ∀ d ∈ m.dependencies.getD [], rank d < rank n

/-- The events produced by firing a list of hooks (none of which throws),
starting at a given index. -/
def hookEvents (event : String) (mn : Option String) : List HookBeh → Nat → List Event
  | [], _ => []
  | _ :: rest, idx => Event.hookRun event mn idx :: hookEvents event mn rest (idx + 1)

/-- The trace segment produced by firing all hooks of one event when none
of them throws. -/
def hookTraceOf (env : Env) (event : String) (mn : Option String) : List Event :=
  hookEvents event mn (hooksOf env event) 0

/-- The trace segment produced by the shutdown walk over a list of
(registered) names: a `shutdownRun` for every module with a `shutdown`
callback, followed by `shutdownFailed` when that callback throws. -/
def shutdownTraceOf (env : Env) : List String → List Event
  | [] => []
  | n :: rest =>
    (match lookupA n env.modules with
     | some m =>
       match m.shutdown with
       | some true => [Event.shutdownRun n]
       | some false => [Event.shutdownRun n, Event.shutdownFailed n]
       | none => []
     | none => []) ++ shutdownTraceOf env rest

/-- The dependency-loop step function of `initializeModule` (the fold body
inside `initModule`), named for reasoning. -/
def depStep (env : Env) (fuel : Nat) (curName : String) (acc : SysState × Res) (d : String) :
    SysState × Res :=
  match acc with
  | (s', Res.ok) =>
    match lookupA d env.modules with
    | none => (s', .err { kind := .unresolvedDep d curName })
    | some _ => initModule env fuel d s'
  | other => other

/-- One run-extension step: the initialised list and the trace only grow;
every newly initialised name was previously uninitialised, is registered,
and has its `marked` event in the new trace segment; a module's services
entry changes only if a publication event for it is in the new segment;
and every new event is about some module. -/
def StepOK (env : Env) (s s' : SysState) : Prop :=
  ∃ δ T, s'.initialized = s.initialized ++ δ ∧ s'.trace = s.trace ++ T ∧
    (∀ x ∈ δ, x ∉ s.initialized ∧ Event.marked x ∈ T ∧ ∃ mx, lookupA x env.modules = some mx) ∧
    (∀ X, lookupA X s'.services = lookupA X s.services ∨ Event.svcPublished X ∈ T) ∧
    (∀ ev ∈ T, ∃ x, aboutName ev = some x)

/-- State invariant: the Initialized Set contains exactly the modules
whose `marked` event is in the trace. -/
def MInv (s : SysState) : Prop :=
  ∀ X, X ∈ s.initialized ↔ Event.marked X ∈ s.trace

/-- Trace invariant for claim C1: wherever a module's `initialize` runs,
every declared dependency of that module has been added to the
Initialized Set (its `marked` event lies strictly earlier in the trace). -/
def DepB (env : Env) (t : List Event) : Prop :=
  ∀ B mB A, lookupA B env.modules = some mB → A ∈ mB.dependencies.getD [] →
    ∀ u v, t = u ++ Event.initRun B :: v → Event.marked A ∈ u

/-- Counting invariant: every module's `initialize` has been invoked at
most once so far, and not at all if the module is not in the Initialized
Set (the state a run is in between module initialisations). -/
def CntOK (s : SysState) : Prop :=
  ∀ X, s.trace.count (Event.initRun X) ≤ 1 ∧
    (X ∉ s.initialized → s.trace.count (Event.initRun X) = 0)

/-- Concrete environment whose middle module's `initialize` throws, used
to witness failure-propagation theorems on explicit input. -/
def envInitFail : Env :=
  { modules :=
      [("a", { id := some "a", name := some "A", initFn := some true }),
       ("bad", { id := some "bad", name := some "Bad", initFn := some false }),
       ("c", { id := some "c", name := some "C", initFn := some true })],
    hooks := [], hasApp := false }

/-- Concrete environment where module `c` declares the unregistered
dependency `"ghost"`, while module `b` (registered before `c`) depends on
module `d` (registered after `c`).  Used for the unresolved-dependency
claims. -/
def envGhost : Env :=
  { modules :=
      [("b", { id := some "b", name := some "B", dependencies := some ["d"],
               initFn := some true }),
       ("c", { id := some "c", name := some "C", dependencies := some ["ghost"],
               initFn := some true }),
       ("d", { id := some "d", name := some "D", initFn := some true })],
    hooks := [], hasApp := false }

/-- Concrete three-module environment whose middle module's `shutdown`
callback throws, used to witness the shutdown-order and
failure-isolation theorems on explicit input. -/
def envSd : Env :=
  { modules :=
      [("a", { id := some "a", name := some "A", initFn := some true,
               shutdown := some true }),
       ("b", { id := some "b", name := some "B", initFn := some true,
               shutdown := some false }),
       ("c", { id := some "c", name := some "C", initFn := some true,
               shutdown := some true })],
    hooks := [], hasApp := false }

/-- Concrete one-module environment with an `afterInit` lifecycle hook
that throws exactly for module `M`, used to witness the
afterInit-failure theorems on explicit input. -/
def envC10 : Env :=
  { modules :=
      [("M", { id := some "M", name := some "M", initFn := some true,
               shutdown := some true })],
    hooks := [("afterInit", [fun mn => mn == some "M"])], hasApp := false }

/-- Concrete two-module environment (a `logger` module and a `db` module
depending on it), used to witness run-level theorems on explicit input. -/
def envLoggerDb : Env :=
  { modules :=
      [("logger", { id := some "logger", name := some "Logger", initFn := some true }),
       ("db", { id := some "db", name := some "DB", dependencies := some ["logger"],
                initFn := some true })],
    hooks := [], hasApp := false }

end ModSys

namespace ModSys

theorem lookupA_append_right {α : Type} (k : String) (v : α) (l : List (String × α))
    (h : lookupA k l = none) : lookupA k (l ++ [(k, v)]) = some v := by
  induction l with
  | nil => simp [lookupA]
  | cons p rest ih =>
    obtain ⟨k', v'⟩ := p
    by_cases hk : k' = k
    · simp [lookupA, hk] at h
    · simp [lookupA, hk] at h ⊢
      exact ih h

/-- C7: registering a name already present in the registry never replaces
the first definition.  If `registerModule n defA` succeeded (producing
registry `reg1` and returning `defA`), then a subsequent
`registerModule n defB` with a definition passing validation returns
`defA` with the duplicate-name warning, leaves the registry unchanged,
and `getModule n` still returns `defA`. -/
theorem c7_duplicate_registration_keeps_first
    (n : String) (defA defB : ModuleDef) (reg reg1 : List (String × ModuleDef)) (w : Bool)
    (hA : registerModule n defA reg = .ok (defA, reg1, w))
    (hBid : truthyStr defB.id = true) (hBname : truthyStr defB.name = true) :
    registerModule n defB reg1 = .ok (defA, reg1, true) ∧ getModule n reg1 = some defA := by
  unfold registerModule at hA
  by_cases hn : n = ""
  · simp [hn] at hA
  · simp only [hn, if_false] at hA
    by_cases hv : !truthyStr defA.id || !truthyStr defA.name
    · simp [hv] at hA
    · simp only [hv, if_false] at hA
      have hlook : lookupA n reg1 = some defA := by
        cases hr : lookupA n reg with
        | some existing =>
          rw [hr] at hA
          injection hA with h
          injection h with h1 h'
          injection h' with h2 h3
          rw [← h2, ← h1]
          exact hr
        | none =>
          rw [hr] at hA
          injection hA with h
          injection h with h1 h'
          injection h' with h2 h3
          rw [← h2]
          exact lookupA_append_right n defA reg hr
      constructor
      · unfold registerModule
        simp [hn, hBid, hBname, hlook]
      · exact hlook

/-- C7 witness: concrete duplicate registration on a one-entry registry. -/
theorem c7_witness :
    registerModule "a" { id := some "b", name := some "B" }
        [("a", { id := some "a", name := some "A" })] =
      .ok ({ id := some "a", name := some "A" }, [("a", { id := some "a", name := some "A" })], true) ∧
    getModule "a" [("a", { id := some "a", name := some "A" })] =
      some { id := some "a", name := some "A" } :=
  c7_duplicate_registration_keeps_first "a"
    { id := some "a", name := some "A" } { id := some "b", name := some "B" }
    [] [("a", { id := some "a", name := some "A" })] false rfl (by decide) (by decide)

/-- C8 counterexample: a definition carrying string `name` and
`displayName` (the identity fields of the spec's Module Definition
contract) but no `id` is rejected by `registerModule`, because the code
requires the `id` and `name` fields to be truthy. -/
theorem c8_counterexample :
    (ModuleDef.name { name := some "users", displayName := some "Users" } = some "users" ∧
     ModuleDef.displayName { name := some "users", displayName := some "Users" } = some "Users") ∧
    registerModule "users" { name := some "users", displayName := some "Users" } [] =
      .error .invalidModule :=
  ⟨⟨rfl, rfl⟩, rfl⟩

/-- C8 amended: `registerModule` fails exactly when the name is empty or
the definition lacks a truthy `id` or a truthy `name` field (not
`displayName`); for a non-empty name not already registered and a
definition with truthy `id` and `name`, it succeeds, stores the
definition, and returns it without the duplicate warning. -/
theorem c8_amended_validation (name : String) (m : ModuleDef) (reg : List (String × ModuleDef)) :
    ((∃ e, registerModule name m reg = .error e) ↔
      (name = "" ∨ truthyStr m.id = false ∨ truthyStr m.name = false)) ∧
    (name ≠ "" → truthyStr m.id = true → truthyStr m.name = true → lookupA name reg = none →
      registerModule name m reg = .ok (m, reg ++ [(name, m)], false)) := by
  constructor
  · constructor
    · rintro ⟨e, he⟩
      unfold registerModule at he
      by_cases hn : name = ""
      · exact Or.inl hn
      · simp only [hn, if_false] at he
        by_cases hv : !truthyStr m.id || !truthyStr m.name
        · rcases Bool.or_eq_true_iff.mp hv with h | h
          · exact Or.inr (Or.inl (by simpa using h))
          · exact Or.inr (Or.inr (by simpa using h))
        · simp only [hv, if_false] at he
          cases hr : lookupA name reg <;> simp [hr] at he
    · intro h
      unfold registerModule
      by_cases hn : name = ""
      · exact ⟨.invalidName, by simp [hn]⟩
      · rcases h with h | h | h
        · exact absurd h hn
        · exact ⟨.invalidModule, by simp [hn, h]⟩
        · exact ⟨.invalidModule, by simp [hn, h]⟩
  · intro hn hid hname hfresh
    unfold registerModule
    simp [hn, hid, hname, hfresh]

/-- C8 amended witness: a fresh valid registration succeeds concretely. -/
theorem c8_amended_witness :
    registerModule "auth" { id := some "auth", name := some "Auth" } [] =
      .ok ({ id := some "auth", name := some "Auth" },
        [("auth", { id := some "auth", name := some "Auth" })], false) :=
  (c8_amended_validation "auth" { id := some "auth", name := some "Auth" } []).2
    (by decide) (by decide) (by decide) (by decide)

/-- C9: the `getService` accessor is a total function (it never throws):
it returns `undefined` whenever the named module has published no
services; when services are published it returns the whole services
object when no service name is passed, and the named entry (or
`undefined` when that entry is absent) when a non-empty service name is
passed. -/
theorem c9_getService_never_throws
    (svcs : List (String × List (String × Nat))) (mn : String) (sn : Option String) :
    (lookupA mn svcs = none → ctxGetService svcs mn sn = .undefinedV) ∧
    (∀ ms, lookupA mn svcs = some ms →
      (sn = none → ctxGetService svcs mn sn = .whole ms) ∧
      (∀ s, sn = some s → s ≠ "" →
        ctxGetService svcs mn sn =
          (match lookupA s ms with
           | some v => .single v
           | none => .undefinedV))) := by
  constructor
  · intro h
    unfold ctxGetService
    rw [h]
  · intro ms hms
    constructor
    · intro hsn
      unfold ctxGetService
      rw [hms, hsn]
    · intro s hs hne
      unfold ctxGetService
      rw [hms, hs]
      simp [hne]

/-- C9 witness: before the `users` module publishes services, the lookup
returns `undefined`; afterwards it returns the published entry. -/
theorem c9_witness :
    ctxGetService [] "users" none = .undefinedV ∧
    ctxGetService [("users", [("getUser", 7)])] "users" (some "getUser") = .single 7 :=
  ⟨(c9_getService_never_throws [] "users" none).1 (by decide),
   by
    have h := ((c9_getService_never_throws [("users", [("getUser", 7)])] "users"
      (some "getUser")).2 [("getUser", 7)] (by decide)).2 "getUser" rfl (by decide)
    simpa using h⟩

theorem initModule_zero (env : Env) (name : String) (s : SysState) :
    initModule env 0 name s = (s, .fuelOut) := rfl

theorem depStep_stuck (env : Env) (fuel : Nat) (curName : String) (s' : SysState) (r : Res)
    (h : r ≠ Res.ok) (d : String) : depStep env fuel curName (s', r) d = (s', r) := by
  cases r with
  | ok => exact absurd rfl h
  | err e => rfl
  | fuelOut => rfl

theorem foldl_depStep_stuck (env : Env) (fuel : Nat) (curName : String) :
    ∀ (L : List String) (s' : SysState) (r : Res), r ≠ Res.ok →
      L.foldl (depStep env fuel curName) (s', r) = (s', r) := by
  intro L
  induction L with
  | nil => intro s' r _; rfl
  | cons d rest ih =>
    intro s' r h
    rw [List.foldl_cons, depStep_stuck env fuel curName s' r h d]
    exact ih s' r h

theorem foldl_depStep_eq_initDeps (env : Env) (fuel : Nat) (curName : String) :
    ∀ (L : List String) (s : SysState),
      L.foldl (depStep env fuel curName) (s, Res.ok) = initDeps env fuel curName L s := by
  intro L
  induction L with
  | nil => intro s; rfl
  | cons d rest ih =>
    intro s
    rw [List.foldl_cons]
    show rest.foldl (depStep env fuel curName) (depStep env fuel curName (s, Res.ok) d) = _
    unfold depStep initDeps
    cases hd : lookupA d env.modules with
    | none =>
      simp only []
      exact foldl_depStep_stuck env fuel curName rest s _ (by intro h; cases h)
    | some m =>
      simp only []
      cases hr : initModule env fuel d s with
      | mk s1 r1 =>
        cases r1 with
        | ok => exact ih s1
        | err e => exact foldl_depStep_stuck env fuel curName rest s1 _ (by intro h; cases h)
        | fuelOut => exact foldl_depStep_stuck env fuel curName rest s1 _ (by intro h; cases h)

theorem initModule_succ (env : Env) (fuel : Nat) (name : String) (s : SysState) :
    initModule env (fuel + 1) name s =
      if name ∈ s.initialized then (s, Res.ok)
      else
        match lookupA name env.modules with
        | none => (s, .err { kind := .moduleNotFound name })
        | some m =>
          match initDeps env fuel name (m.dependencies.getD []) s with
          | (s1, Res.ok) =>
            match runBody env name m s1 with
            | (s2, none) => (s2, Res.ok)
            | (s2, some e) => (s2, .err { e with moduleTag := some name })
          | other => other := by
  show (if name ∈ s.initialized then (s, Res.ok)
      else
        match lookupA name env.modules with
        | none => (s, .err { kind := .moduleNotFound name })
        | some m =>
          match (m.dependencies.getD []).foldl (depStep env fuel name) (s, Res.ok) with
          | (s1, Res.ok) =>
            match runBody env name m s1 with
            | (s2, none) => (s2, Res.ok)
            | (s2, some e) => (s2, .err { e with moduleTag := some name })
          | other => other) = _
  simp only [foldl_depStep_eq_initDeps]

theorem initModule_mem (env : Env) (f : Nat) (name : String) (s : SysState)
    (hmem : name ∈ s.initialized) : initModule env (f + 1) name s = (s, Res.ok) := by
  rw [initModule_succ, if_pos hmem]

theorem initModule_notFound (env : Env) (f : Nat) (name : String) (s : SysState)
    (hmem : name ∉ s.initialized) (hl : lookupA name env.modules = none) :
    initModule env (f + 1) name s = (s, .err { kind := .moduleNotFound name }) := by
  simp only [initModule_succ, if_neg hmem, hl]

theorem initModule_depsFail (env : Env) (f : Nat) (name : String) (s : SysState)
    (hmem : name ∉ s.initialized) (m : ModuleDef) (hl : lookupA name env.modules = some m)
    (s1 : SysState) (r1 : Res) (hd : initDeps env f name (m.dependencies.getD []) s = (s1, r1))
    (hne : r1 ≠ Res.ok) : initModule env (f + 1) name s = (s1, r1) := by
  cases r1 with
  | ok => exact absurd rfl hne
  | err e => simp only [initModule_succ, if_neg hmem, hl, hd]
  | fuelOut => simp only [initModule_succ, if_neg hmem, hl, hd]

theorem initModule_bodyOk (env : Env) (f : Nat) (name : String) (s : SysState)
    (hmem : name ∉ s.initialized) (m : ModuleDef) (hl : lookupA name env.modules = some m)
    (s1 : SysState) (hd : initDeps env f name (m.dependencies.getD []) s = (s1, Res.ok))
    (s2 : SysState) (hb : runBody env name m s1 = (s2, none)) :
    initModule env (f + 1) name s = (s2, Res.ok) := by
  simp only [initModule_succ, if_neg hmem, hl, hd, hb]

theorem initModule_bodyErr (env : Env) (f : Nat) (name : String) (s : SysState)
    (hmem : name ∉ s.initialized) (m : ModuleDef) (hl : lookupA name env.modules = some m)
    (s1 : SysState) (hd : initDeps env f name (m.dependencies.getD []) s = (s1, Res.ok))
    (s2 : SysState) (e : JsError) (hb : runBody env name m s1 = (s2, some e)) :
    initModule env (f + 1) name s = (s2, .err { kind := e.kind, moduleTag := some name }) := by
  simp only [initModule_succ, if_neg hmem, hl, hd, hb]

theorem initDeps_nil (env : Env) (fuel : Nat) (c : String) (s : SysState) :
    initDeps env fuel c [] s = (s, Res.ok) := rfl

theorem initDeps_unreg (env : Env) (fuel : Nat) (c d : String) (rest : List String)
    (s : SysState) (hl : lookupA d env.modules = none) :
    initDeps env fuel c (d :: rest) s = (s, .err { kind := .unresolvedDep d c }) := by
  simp only [initDeps, hl]

theorem initDeps_consOk (env : Env) (fuel : Nat) (c d : String) (rest : List String)
    (s : SysState) (md : ModuleDef) (hl : lookupA d env.modules = some md)
    (s1 : SysState) (hr : initModule env fuel d s = (s1, Res.ok)) :
    initDeps env fuel c (d :: rest) s = initDeps env fuel c rest s1 := by
  simp only [initDeps, hl, hr]

theorem initDeps_consFail (env : Env) (fuel : Nat) (c d : String) (rest : List String)
    (s : SysState) (md : ModuleDef) (hl : lookupA d env.modules = some md)
    (s1 : SysState) (r1 : Res) (hr : initModule env fuel d s = (s1, r1)) (hne : r1 ≠ Res.ok) :
    initDeps env fuel c (d :: rest) s = (s1, r1) := by
  cases r1 with
  | ok => exact absurd rfl hne
  | err e => simp only [initDeps, hl, hr]
  | fuelOut => simp only [initDeps, hl, hr]

theorem initAllNames_nil (env : Env) (fuel : Nat) (s : SysState) :
    initAllNames env fuel [] s = (s, Res.ok) := rfl

theorem initAllNames_consOk (env : Env) (fuel : Nat) (n : String) (rest : List String)
    (s s1 : SysState) (hr : initModule env fuel n s = (s1, Res.ok)) :
    initAllNames env fuel (n :: rest) s = initAllNames env fuel rest s1 := by
  simp only [initAllNames, hr]

theorem initAllNames_consFail (env : Env) (fuel : Nat) (n : String) (rest : List String)
    (s s1 : SysState) (r1 : Res) (hr : initModule env fuel n s = (s1, r1)) (hne : r1 ≠ Res.ok) :
    initAllNames env fuel (n :: rest) s = (s1, r1) := by
  cases r1 with
  | ok => exact absurd rfl hne
  | err e => simp only [initAllNames, hr]
  | fuelOut => simp only [initAllNames, hr]

/-- The Initialized Set left over from a previous run is always cleared at
the start of `initializeModules` (the conditional `initialized.clear()`). -/
theorem initModules_eq (env : Env) (fuel : Nat) (prevInitialized : List String) :
    initModules env fuel prevInitialized =
      match triggerLifecycleHooks env "beforeAllInit" none
          { initialized := [], services := [], trace := [] } with
      | (s1, some e) => (s1, .err e)
      | (s1, none) =>
        match initAllNames env fuel (env.modules.map Prod.fst) s1 with
        | (s2, Res.ok) =>
          match triggerLifecycleHooks env "afterAllInit" none s2 with
          | (s3, some e) => (s3, .err e)
          | (s3, none) => (s3, .ok)
        | other => other := by
  cases prevInitialized with
  | nil => rfl
  | cons h t => simp [initModules]

theorem initModules_hookFail (env : Env) (fuel : Nat) (prev : List String)
    (s1 : SysState) (e : JsError)
    (hr : triggerLifecycleHooks env "beforeAllInit" none
      { initialized := [], services := [], trace := [] } = (s1, some e)) :
    initModules env fuel prev = (s1, .err e) := by
  simp only [initModules_eq, hr]

theorem initModules_loopFail (env : Env) (fuel : Nat) (prev : List String)
    (s1 s2 : SysState) (r2 : Res)
    (hr : triggerLifecycleHooks env "beforeAllInit" none
      { initialized := [], services := [], trace := [] } = (s1, none))
    (hl : initAllNames env fuel (env.modules.map Prod.fst) s1 = (s2, r2)) (hne : r2 ≠ Res.ok) :
    initModules env fuel prev = (s2, r2) := by
  cases r2 with
  | ok => exact absurd rfl hne
  | err e => simp only [initModules_eq, hr, hl]
  | fuelOut => simp only [initModules_eq, hr, hl]

theorem initModules_afterFail (env : Env) (fuel : Nat) (prev : List String)
    (s1 s2 s3 : SysState) (e : JsError)
    (hr : triggerLifecycleHooks env "beforeAllInit" none
      { initialized := [], services := [], trace := [] } = (s1, none))
    (hl : initAllNames env fuel (env.modules.map Prod.fst) s1 = (s2, Res.ok))
    (ha : triggerLifecycleHooks env "afterAllInit" none s2 = (s3, some e)) :
    initModules env fuel prev = (s3, .err e) := by
  simp only [initModules_eq, hr, hl, ha]

theorem initModules_allOk (env : Env) (fuel : Nat) (prev : List String)
    (s1 s2 s3 : SysState)
    (hr : triggerLifecycleHooks env "beforeAllInit" none
      { initialized := [], services := [], trace := [] } = (s1, none))
    (hl : initAllNames env fuel (env.modules.map Prod.fst) s1 = (s2, Res.ok))
    (ha : triggerLifecycleHooks env "afterAllInit" none s2 = (s3, none)) :
    initModules env fuel prev = (s3, Res.ok) := by
  simp only [initModules_eq, hr, hl, ha]

theorem runHooks_state (event : String) (mn : Option String) :
    ∀ (hs : List HookBeh) (idx : Nat) (s : SysState),
      (runHooks event mn hs idx s).1.initialized = s.initialized ∧
      (runHooks event mn hs idx s).1.services = s.services ∧
      ∃ T, (runHooks event mn hs idx s).1.trace = s.trace ++ T ∧
        ∀ ev ∈ T, ∃ j, ev = Event.hookRun event mn j := by
  intro hs
  induction hs with
  | nil =>
    intro idx s
    exact ⟨rfl, rfl, ⟨[], by simp [runHooks], by simp⟩⟩
  | cons h rest ih =>
    intro idx s
    unfold runHooks
    by_cases hb : h mn = true
    · rw [if_pos hb]
      refine ⟨rfl, rfl, [Event.hookRun event mn idx], rfl, ?_⟩
      intro ev hev
      simp at hev
      exact ⟨idx, hev⟩
    · rw [if_neg hb]
      obtain ⟨h1, h2, T, h3, h4⟩ :=
        ih (idx + 1) { s with trace := s.trace ++ [Event.hookRun event mn idx] }
      refine ⟨h1, h2, Event.hookRun event mn idx :: T, ?_, ?_⟩
      · rw [h3]
        simp
      · intro ev hev
        rcases List.mem_cons.mp hev with hev | hev
        · exact ⟨idx, hev⟩
        · exact h4 ev hev

theorem runHooks_err_shape (event : String) (mn : Option String) :
    ∀ (hs : List HookBeh) (idx : Nat) (s : SysState) (e' : JsError),
      (runHooks event mn hs idx s).2 = some e' →
      e' = { kind := .hookFailed event, moduleTag := none } := by
  intro hs
  induction hs with
  | nil => intro idx s e' h; simp [runHooks] at h
  | cons h rest ih =>
    intro idx s e' hres
    unfold runHooks at hres
    by_cases hb : h mn = true
    · rw [if_pos hb] at hres
      injection hres with h1
      exact h1.symm
    · rw [if_neg hb] at hres
      exact ih _ _ _ hres

theorem runHooks_allPass (event : String) (mn : Option String) :
    ∀ (hs : List HookBeh) (idx : Nat) (s : SysState), (∀ h ∈ hs, h mn = false) →
      runHooks event mn hs idx s =
        ({ s with trace := s.trace ++ hookEvents event mn hs idx }, none) := by
  intro hs
  induction hs with
  | nil => intro idx s _; simp [runHooks, hookEvents]
  | cons h rest ih =>
    intro idx s hall
    have hh : h mn = false := hall h (by simp)
    have hh' : ¬ h mn = true := by simp [hh]
    unfold runHooks
    rw [if_neg hh']
    rw [ih (idx + 1) _ (fun h' hm => hall h' (by simp [hm]))]
    simp [hookEvents]

theorem runHooks_someFail (event : String) (mn : Option String) :
    ∀ (hs : List HookBeh) (idx : Nat) (s : SysState), (∃ h ∈ hs, h mn = true) →
      (runHooks event mn hs idx s).2 = some { kind := .hookFailed event, moduleTag := none } := by
  intro hs
  induction hs with
  | nil => intro idx s h; simp at h
  | cons h rest ih =>
    intro idx s hex
    unfold runHooks
    by_cases hb : h mn = true
    · rw [if_pos hb]
    · rw [if_neg hb]
      apply ih
      rcases hex with ⟨h', hm, ht⟩
      rcases List.mem_cons.mp hm with hm | hm
      · rw [← hm] at hb; exact absurd ht hb
      · exact ⟨h', hm, ht⟩

theorem trigger_state (env : Env) (event : String) (mn : Option String) (s : SysState) :
    (triggerLifecycleHooks env event mn s).1.initialized = s.initialized ∧
    (triggerLifecycleHooks env event mn s).1.services = s.services ∧
    ∃ T, (triggerLifecycleHooks env event mn s).1.trace = s.trace ++ T ∧
      ∀ ev ∈ T, ∃ j, ev = Event.hookRun event mn j :=
  runHooks_state event mn (hooksOf env event) 0 s

theorem trigger_err_shape (env : Env) (event : String) (mn : Option String) (s : SysState)
    (e' : JsError) (h : (triggerLifecycleHooks env event mn s).2 = some e') :
    e' = { kind := .hookFailed event, moduleTag := none } :=
  runHooks_err_shape event mn (hooksOf env event) 0 s e' h

theorem trigger_allPass (env : Env) (event : String) (mn : Option String) (s : SysState)
    (h : ∀ hb ∈ hooksOf env event, hb mn = false) :
    triggerLifecycleHooks env event mn s =
      ({ s with trace := s.trace ++ hookTraceOf env event mn }, none) :=
  runHooks_allPass event mn (hooksOf env event) 0 s h

theorem trigger_someFail (env : Env) (event : String) (mn : Option String) (s : SysState)
    (h : ∃ hb ∈ hooksOf env event, hb mn = true) :
    (triggerLifecycleHooks env event mn s).2 =
      some { kind := .hookFailed event, moduleTag := none } :=
  runHooks_someFail event mn (hooksOf env event) 0 s h

theorem notMem_of_all {α : Type} (T : List α) (x : α) (P : α → Prop)
    (hall : ∀ ev ∈ T, P ev) (hx : ¬ P x) : x ∉ T :=
  fun hm => hx (hall x hm)

theorem lookupA_setA_ne {α : Type} (k X : String) (v : α) (h : X ≠ k) :
    ∀ l : List (String × α), lookupA X (setA k v l) = lookupA X l := by
  intro l
  induction l with
  | nil =>
    have hne : ¬ k = X := fun hh => h hh.symm
    simp [setA, lookupA, hne]
  | cons p rest ih =>
    obtain ⟨k', v'⟩ := p
    by_cases hk : k' = k
    · subst hk
      simp only [setA, if_pos rfl]
      have hne : ¬ k' = X := fun hh => h (hh.symm ▸ rfl)
      simp [lookupA, hne]
    · simp only [setA, if_neg hk]
      by_cases hx : k' = X
      · simp [lookupA, hx]
      · simp [lookupA, hx, ih]

theorem stepInit_spec (name : String) (m : ModuleDef) (s : SysState) :
    (stepInit name m s).1.initialized = s.initialized ∧
    (stepInit name m s).1.services = s.services ∧
    ∃ T, (stepInit name m s).1.trace = s.trace ++ T ∧
      (∀ ev ∈ T, ev = Event.initRun name) ∧
      T.count (Event.initRun name) = (if m.initFn.isSome then 1 else 0) ∧
      (∀ e', (stepInit name m s).2 = some e' →
        e' = { kind := ErrKind.initFailed name, moduleTag := none } ∧ m.initFn = some false) ∧
      ((stepInit name m s).2 = none ↔ m.initFn ≠ some false) := by
  unfold stepInit
  cases hi : m.initFn with
  | none =>
    refine ⟨rfl, rfl, [], by simp, by simp [hi], by simp, by simp [hi]⟩
  | some b =>
    cases b with
    | true =>
      refine ⟨rfl, rfl, [Event.initRun name], by simp, ?_, ?_, ?_, ?_⟩
      · intro ev hev; simpa using hev
      · simp [hi]
      · intro e' he'; simp at he'
      · simp [hi]
    | false =>
      refine ⟨rfl, rfl, [Event.initRun name], by simp, ?_, ?_, ?_, ?_⟩
      · intro ev hev; simpa using hev
      · simp [hi]
      · intro e' he'
        injection he' with h1
        exact ⟨h1.symm, rfl⟩
      · simp [hi]

theorem stepRoutes_spec (env : Env) (name : String) (m : ModuleDef) (s : SysState) :
    (stepRoutes env name m s).1.initialized = s.initialized ∧
    (stepRoutes env name m s).1.services = s.services ∧
    ∃ T, (stepRoutes env name m s).1.trace = s.trace ++ T ∧
      (∀ ev ∈ T, ev = Event.routesRun name) ∧
      (∀ e', (stepRoutes env name m s).2 = some e' →
        e' = { kind := ErrKind.routesFailed name, moduleTag := none }) := by
  unfold stepRoutes
  cases hr : m.routes with
  | none =>
    cases ha : env.hasApp
    · exact ⟨rfl, rfl, [], by simp, by simp, by simp⟩
    · exact ⟨rfl, rfl, [], by simp, by simp, by simp⟩
  | some b =>
    cases ha : env.hasApp with
    | false => exact ⟨rfl, rfl, [], by simp, by simp, by simp⟩
    | true =>
      cases b with
      | true =>
        refine ⟨rfl, rfl, [Event.routesRun name], rfl, ?_, ?_⟩
        · intro ev hev; simpa using hev
        · intro e' he'; simp at he'
      | false =>
        refine ⟨rfl, rfl, [Event.routesRun name], rfl, ?_, ?_⟩
        · intro ev hev; simpa using hev
        · intro e' he'
          injection he' with h1
          exact h1.symm

theorem stepSvcMark_spec (name : String) (m : ModuleDef) (s : SysState) :
    ∃ T, (stepSvcMark name m s).trace = s.trace ++ T ∧
      (∀ ev ∈ T, ev = Event.svcPublished name ∨ ev = Event.marked name) ∧
      Event.marked name ∈ T ∧
      name ∈ (stepSvcMark name m s).initialized ∧
      ((stepSvcMark name m s).initialized = s.initialized ∨
        ((stepSvcMark name m s).initialized = s.initialized ++ [name] ∧ name ∉ s.initialized)) ∧
      (∀ X, X ≠ name → lookupA X (stepSvcMark name m s).services = lookupA X s.services) ∧
      (∀ X, lookupA X (stepSvcMark name m s).services = lookupA X s.services ∨
        Event.svcPublished X ∈ T) := by
  unfold stepSvcMark
  cases hsv : m.services with
  | none =>
    by_cases hm : name ∈ s.initialized
    · rw [if_pos hm]
      refine ⟨[Event.marked name], by simp, by simp, by simp, hm, Or.inl rfl, by simp,
        fun X => Or.inl rfl⟩
    · rw [if_neg hm]
      refine ⟨[Event.marked name], by simp, by simp, by simp, by simp, Or.inr ⟨rfl, hm⟩, by simp,
        fun X => Or.inl rfl⟩
  | some svc =>
    by_cases hm : name ∈ s.initialized
    · rw [if_pos hm]
      refine ⟨[Event.svcPublished name, Event.marked name], by simp, ?_, by simp, hm, Or.inl rfl,
        ?_, ?_⟩
      · intro ev hev
        rcases List.mem_cons.mp hev with h | h
        · exact Or.inl h
        · exact Or.inr (by simpa using h)
      · intro X hX
        exact lookupA_setA_ne name X svc hX s.services
      · intro X
        by_cases hX : X = name
        · exact Or.inr (by simp [hX])
        · exact Or.inl (lookupA_setA_ne name X svc hX s.services)
    · rw [if_neg hm]
      refine ⟨[Event.svcPublished name, Event.marked name], by simp, ?_, by simp, by simp,
        Or.inr ⟨rfl, hm⟩, ?_, ?_⟩
      · intro ev hev
        rcases List.mem_cons.mp hev with h | h
        · exact Or.inl h
        · exact Or.inr (by simpa using h)
      · intro X hX
        exact lookupA_setA_ne name X svc hX s.services
      · intro X
        by_cases hX : X = name
        · exact Or.inr (by simp [hX])
        · exact Or.inl (lookupA_setA_ne name X svc hX s.services)

theorem stepOK_refl (env : Env) (s : SysState) : StepOK env s s :=
  ⟨[], [], by simp, by simp, by simp, fun X => Or.inl rfl, by simp⟩

theorem stepOK_trans (env : Env) (s1 s2 s3 : SysState)
    (h12 : StepOK env s1 s2) (h23 : StepOK env s2 s3) : StepOK env s1 s3 := by
  obtain ⟨d1, T1, hi1, ht1, hd1, hs1, he1⟩ := h12
  obtain ⟨d2, T2, hi2, ht2, hd2, hs2, he2⟩ := h23
  refine ⟨d1 ++ d2, T1 ++ T2, ?_, ?_, ?_, ?_, ?_⟩
  · rw [hi2, hi1, List.append_assoc]
  · rw [ht2, ht1, List.append_assoc]
  · intro x hx
    rcases List.mem_append.mp hx with hx | hx
    · obtain ⟨ha, hb, hc⟩ := hd1 x hx
      exact ⟨ha, List.mem_append.mpr (Or.inl hb), hc⟩
    · obtain ⟨ha, hb, hc⟩ := hd2 x hx
      refine ⟨?_, List.mem_append.mpr (Or.inr hb), hc⟩
      intro hmem
      exact ha (by rw [hi1]; exact List.mem_append.mpr (Or.inl hmem))
  · intro X
    rcases hs2 X with h | h
    · rcases hs1 X with h' | h'
      · exact Or.inl (h.trans h')
      · exact Or.inr (List.mem_append.mpr (Or.inl h'))
    · exact Or.inr (List.mem_append.mpr (Or.inr h))
  · intro ev hev
    rcases List.mem_append.mp hev with h | h
    · exact he1 ev h
    · exact he2 ev h

theorem andThen_eq (p : SysState × Option JsError) (f : SysState → SysState × Option JsError) :
    andThen p f = match p.2 with | none => f p.1 | some e => (p.1, some e) := by
  obtain ⟨a, b⟩ := p
  cases b <;> rfl

/-- Full characterization of the `try` block of `initializeModule`: the
produced trace segment is about the module alone, contains at most one
`initRun`, adds the module to the Initialized Set exactly when control
reaches the marking step, changes no other module's services entry, and
any error is one of the four body error kinds, still untagged. -/
theorem runBody_spec (env : Env) (name : String) (m : ModuleDef) (s : SysState) :
    ∃ T, (runBody env name m s).1.trace = s.trace ++ T ∧
      (∀ ev ∈ T, aboutName ev = some name) ∧
      T.count (Event.initRun name) ≤ 1 ∧
      (m.initFn = none → T.count (Event.initRun name) = 0) ∧
      ((runBody env name m s).1.initialized = s.initialized ∨
        ((runBody env name m s).1.initialized = s.initialized ++ [name] ∧ name ∉ s.initialized ∧
          Event.marked name ∈ T)) ∧
      (∀ X, Event.marked X ∈ T → X ∈ (runBody env name m s).1.initialized) ∧
      (m.initFn.isSome = true → Event.marked name ∈ T → Event.initRun name ∈ T) ∧
      (∀ X, X ≠ name → lookupA X (runBody env name m s).1.services = lookupA X s.services) ∧
      (∀ X, lookupA X (runBody env name m s).1.services = lookupA X s.services ∨
        Event.svcPublished X ∈ T) ∧
      (∀ e', (runBody env name m s).2 = some e' → e'.moduleTag = none ∧
        (e'.kind = ErrKind.hookFailed "beforeInit" ∨ e'.kind = ErrKind.initFailed name ∨
         e'.kind = ErrKind.routesFailed name ∨ e'.kind = ErrKind.hookFailed "afterInit")) ∧
      ((runBody env name m s).2 = none → name ∈ (runBody env name m s).1.initialized ∧
        T.count (Event.initRun name) = (if m.initFn.isSome then 1 else 0)) := by
  obtain ⟨h1i, h1s, T1, h1t, h1e⟩ := trigger_state env "beforeInit" (some name) s
  have hT1about : ∀ ev ∈ T1, aboutName ev = some name := by
    intro ev hev
    obtain ⟨j, hj⟩ := h1e ev hev
    rw [hj]; rfl
  have hT1noInit : Event.initRun name ∉ T1 := by
    apply notMem_of_all T1 _ (fun ev => ∃ j, ev = Event.hookRun "beforeInit" (some name) j) h1e
    rintro ⟨j, hj⟩; cases hj
  have hT1noMark : ∀ X, Event.marked X ∉ T1 := by
    intro X
    apply notMem_of_all T1 _ (fun ev => ∃ j, ev = Event.hookRun "beforeInit" (some name) j) h1e
    rintro ⟨j, hj⟩; cases hj
  unfold runBody
  rw [andThen_eq]
  cases hr1 : (triggerLifecycleHooks env "beforeInit" (some name) s).2 with
  | some e =>
    have he := trigger_err_shape env "beforeInit" (some name) s e hr1
    refine ⟨T1, h1t, hT1about, ?_, ?_, Or.inl h1i, ?_, ?_, ?_, ?_, ?_, ?_⟩
    · rw [List.count_eq_zero.mpr hT1noInit]; exact Nat.zero_le 1
    · intro _; exact List.count_eq_zero.mpr hT1noInit
    · intro X hX; exact absurd hX (hT1noMark X)
    · intro _ hmark; exact absurd hmark (hT1noMark name)
    · intro X _; rw [h1s]
    · intro X; exact Or.inl (by rw [h1s])
    · intro e' he'
      injection he' with h
      rw [← h, he]
      exact ⟨rfl, Or.inl rfl⟩
    · intro hnone; exact Option.noConfusion hnone
  | none =>
    dsimp only
    obtain ⟨h2i, h2s, T2, h2t, h2e, h2c, h2err, h2iff⟩ :=
      stepInit_spec name m (triggerLifecycleHooks env "beforeInit" (some name) s).1
    have hT2about : ∀ ev ∈ T2, aboutName ev = some name := by
      intro ev hev; rw [h2e ev hev]; rfl
    have hT2noMark : ∀ X, Event.marked X ∉ T2 := by
      intro X
      apply notMem_of_all T2 _ (fun ev => ev = Event.initRun name) h2e
      intro hj; cases hj
    rw [andThen_eq]
    cases hr2 : (stepInit name m (triggerLifecycleHooks env "beforeInit" (some name) s).1).2 with
    | some e =>
      obtain ⟨he, hif⟩ := h2err e hr2
      refine ⟨T1 ++ T2, ?_, ?_, ?_, ?_, ?_, ?_, ?_, ?_, ?_, ?_, ?_⟩
      · rw [h2t, h1t, List.append_assoc]
      · intro ev hev
        rcases List.mem_append.mp hev with h | h
        · exact hT1about ev h
        · exact hT2about ev h
      · rw [List.count_append, List.count_eq_zero.mpr hT1noInit, h2c]
        cases m.initFn <;> simp
      · intro hni
        rw [List.count_append, List.count_eq_zero.mpr hT1noInit, h2c, hni]
        simp
      · exact Or.inl (h2i.trans h1i)
      · intro X hX
        rcases List.mem_append.mp hX with h | h
        · exact absurd h (hT1noMark X)
        · exact absurd h (hT2noMark X)
      · intro _ hmark
        rcases List.mem_append.mp hmark with h | h
        · exact absurd h (hT1noMark name)
        · exact absurd h (hT2noMark name)
      · intro X _
        rw [h2s, h1s]
      · intro X; exact Or.inl (by rw [h2s, h1s])
      · intro e' he'
        injection he' with h
        rw [← h, he]
        exact ⟨rfl, Or.inr (Or.inl rfl)⟩
      · intro hnone; exact Option.noConfusion hnone
    | none =>
      dsimp only
      have hi2ok : m.initFn ≠ some false := h2iff.mp hr2
      obtain ⟨h3i, h3s, T3, h3t, h3e, h3err⟩ :=
        stepRoutes_spec env name m (stepInit name m
          (triggerLifecycleHooks env "beforeInit" (some name) s).1).1
      have hT3about : ∀ ev ∈ T3, aboutName ev = some name := by
        intro ev hev; rw [h3e ev hev]; rfl
      have hT3noInit : Event.initRun name ∉ T3 := by
        apply notMem_of_all T3 _ (fun ev => ev = Event.routesRun name) h3e
        intro hj; cases hj
      have hT3noMark : ∀ X, Event.marked X ∉ T3 := by
        intro X
        apply notMem_of_all T3 _ (fun ev => ev = Event.routesRun name) h3e
        intro hj; cases hj
      rw [andThen_eq]
      cases hr3 : (stepRoutes env name m (stepInit name m
          (triggerLifecycleHooks env "beforeInit" (some name) s).1).1).2 with
      | some e =>
        have he := h3err e hr3
        refine ⟨T1 ++ (T2 ++ T3), ?_, ?_, ?_, ?_, ?_, ?_, ?_, ?_, ?_, ?_, ?_⟩
        · rw [h3t, h2t, h1t]
          simp [List.append_assoc]
        · intro ev hev
          rcases List.mem_append.mp hev with h | h
          · exact hT1about ev h
          · rcases List.mem_append.mp h with h | h
            · exact hT2about ev h
            · exact hT3about ev h
        · rw [List.count_append, List.count_append,
            List.count_eq_zero.mpr hT1noInit, List.count_eq_zero.mpr hT3noInit, h2c]
          cases m.initFn <;> simp
        · intro hni
          rw [List.count_append, List.count_append,
            List.count_eq_zero.mpr hT1noInit, List.count_eq_zero.mpr hT3noInit, h2c, hni]
          simp
        · exact Or.inl ((h3i.trans h2i).trans h1i)
        · intro X hX
          rcases List.mem_append.mp hX with h | h
          · exact absurd h (hT1noMark X)
          · rcases List.mem_append.mp h with h | h
            · exact absurd h (hT2noMark X)
            · exact absurd h (hT3noMark X)
        · intro _ hmark
          rcases List.mem_append.mp hmark with h | h
          · exact absurd h (hT1noMark name)
          · rcases List.mem_append.mp h with h | h
            · exact absurd h (hT2noMark name)
            · exact absurd h (hT3noMark name)
        · intro X _
          rw [h3s, h2s, h1s]
        · intro X; exact Or.inl (by rw [h3s, h2s, h1s])
        · intro e' he'
          injection he' with h
          rw [← h, he]
          exact ⟨rfl, Or.inr (Or.inr (Or.inl rfl))⟩
        · intro hnone; exact Option.noConfusion hnone
      | none =>
        dsimp only
        obtain ⟨T4, h4t, h4e, h4mk, h4mem, h4or, h4svc, h4svcAll⟩ :=
          stepSvcMark_spec name m (stepRoutes env name m (stepInit name m
            (triggerLifecycleHooks env "beforeInit" (some name) s).1).1).1
        have hT4about : ∀ ev ∈ T4, aboutName ev = some name := by
          intro ev hev
          rcases h4e ev hev with h | h <;> rw [h] <;> rfl
        have hT4noInit : Event.initRun name ∉ T4 := by
          apply notMem_of_all T4 _
            (fun ev => ev = Event.svcPublished name ∨ ev = Event.marked name) h4e
          rintro (hj | hj) <;> cases hj
        obtain ⟨h5i, h5s, T5, h5t, h5e⟩ := trigger_state env "afterInit" (some name)
          (stepSvcMark name m (stepRoutes env name m (stepInit name m
            (triggerLifecycleHooks env "beforeInit" (some name) s).1).1).1)
        have hT5about : ∀ ev ∈ T5, aboutName ev = some name := by
          intro ev hev
          obtain ⟨j, hj⟩ := h5e ev hev
          rw [hj]; rfl
        have hT5noInit : Event.initRun name ∉ T5 := by
          apply notMem_of_all T5 _
            (fun ev => ∃ j, ev = Event.hookRun "afterInit" (some name) j) h5e
          rintro ⟨j, hj⟩; cases hj
        have hT5noMark : ∀ X, Event.marked X ∉ T5 := by
          intro X
          apply notMem_of_all T5 _
            (fun ev => ∃ j, ev = Event.hookRun "afterInit" (some name) j) h5e
          rintro ⟨j, hj⟩; cases hj
        have hcnt : (T1 ++ (T2 ++ (T3 ++ (T4 ++ T5)))).count (Event.initRun name) =
            (if m.initFn.isSome then 1 else 0) := by
          rw [List.count_append, List.count_append, List.count_append, List.count_append,
            List.count_eq_zero.mpr hT1noInit, List.count_eq_zero.mpr hT3noInit,
            List.count_eq_zero.mpr hT4noInit, List.count_eq_zero.mpr hT5noInit, h2c]
          omega
        refine ⟨T1 ++ (T2 ++ (T3 ++ (T4 ++ T5))), ?_, ?_, ?_, ?_, ?_, ?_, ?_, ?_, ?_, ?_, ?_⟩
        · rw [h5t, h4t, h3t, h2t, h1t]
          simp [List.append_assoc]
        · intro ev hev
          rcases List.mem_append.mp hev with h | h
          · exact hT1about ev h
          · rcases List.mem_append.mp h with h | h
            · exact hT2about ev h
            · rcases List.mem_append.mp h with h | h
              · exact hT3about ev h
              · rcases List.mem_append.mp h with h | h
                · exact hT4about ev h
                · exact hT5about ev h
        · rw [hcnt]
          cases m.initFn <;> simp
        · intro hni
          rw [hcnt, hni]
          simp
        · rcases h4or with h | ⟨ha, hb⟩
          · exact Or.inl (h5i.trans (h.trans ((h3i.trans h2i).trans h1i)))
          · refine Or.inr ⟨?_, ?_, ?_⟩
            · rw [h5i, ha, h3i, h2i, h1i]
            · rw [← h1i, ← h2i, ← h3i]; exact hb
            · refine List.mem_append.mpr (Or.inr ?_)
              refine List.mem_append.mpr (Or.inr ?_)
              refine List.mem_append.mpr (Or.inr ?_)
              exact List.mem_append.mpr (Or.inl h4mk)
        · intro X hX
          have hX4 : Event.marked X ∈ T4 := by
            rcases List.mem_append.mp hX with h | h
            · exact absurd h (hT1noMark X)
            · rcases List.mem_append.mp h with h | h
              · exact absurd h (hT2noMark X)
              · rcases List.mem_append.mp h with h | h
                · exact absurd h (hT3noMark X)
                · rcases List.mem_append.mp h with h | h
                  · exact h
                  · exact absurd h (hT5noMark X)
          have hXname : X = name := by
            rcases h4e _ hX4 with h | h
            · cases h
            · injection h
          rw [h5i, hXname]
          exact h4mem
        · intro hsome _
          have hone : T2.count (Event.initRun name) = 1 := by
            rw [h2c, if_pos hsome]
          have hmem : Event.initRun name ∈ T2 := by
            by_contra hnm
            rw [List.count_eq_zero.mpr hnm] at hone
            cases hone
          refine List.mem_append.mpr (Or.inr ?_)
          exact List.mem_append.mpr (Or.inl hmem)
        · intro X hXne
          rw [h5s, h4svc X hXne, h3s, h2s, h1s]
        · intro X
          rcases h4svcAll X with h | h
          · exact Or.inl (by rw [h5s, h, h3s, h2s, h1s])
          · refine Or.inr ?_
            refine List.mem_append.mpr (Or.inr ?_)
            refine List.mem_append.mpr (Or.inr ?_)
            refine List.mem_append.mpr (Or.inr ?_)
            exact List.mem_append.mpr (Or.inl h)
        · intro e' he'
          have he := trigger_err_shape env "afterInit" (some name) _ e' he'
          rw [he]
          exact ⟨rfl, Or.inr (Or.inr (Or.inr rfl))⟩
        · intro _
          constructor
          · rw [h5i]
            exact h4mem
          · exact hcnt

theorem stepOK_mono (env : Env) (s s' : SysState) (h : StepOK env s s') :
    ∀ X ∈ s.initialized, X ∈ s'.initialized := by
  obtain ⟨δ, T, hi, _, _, _, _⟩ := h
  intro X hX
  rw [hi]
  exact List.mem_append.mpr (Or.inl hX)

theorem runBody_stepOK (env : Env) (name : String) (m : ModuleDef) (s : SysState)
    (hm : lookupA name env.modules = some m) : StepOK env s (runBody env name m s).1 := by
  obtain ⟨T, ht, habout, _, _, hor, _, _, _, hsvcAll, _, _⟩ := runBody_spec env name m s
  rcases hor with h | ⟨ha, hb, hc⟩
  · refine ⟨[], T, by simp [h], ht, by simp, hsvcAll, ?_⟩
    intro ev hev
    exact ⟨name, habout ev hev⟩
  · refine ⟨[name], T, ha, ht, ?_, hsvcAll, ?_⟩
    · intro x hx
      have hx' : x = name := by simpa using hx
      subst hx'
      exact ⟨hb, hc, m, hm⟩
    · intro ev hev
      exact ⟨name, habout ev hev⟩

theorem stepOK_initDeps_of (env : Env) (fuel : Nat)
    (hM : ∀ name s, StepOK env s (initModule env fuel name s).1) :
    ∀ curName L s, StepOK env s (initDeps env fuel curName L s).1 := by
  intro curName L
  induction L with
  | nil => intro s; exact stepOK_refl env s
  | cons d rest ih =>
    intro s
    unfold initDeps
    cases hd : lookupA d env.modules with
    | none => exact stepOK_refl env s
    | some md =>
      cases hr : initModule env fuel d s with
      | mk s1 r1 =>
        have h1 : StepOK env s s1 := by
          have hh := hM d s
          rw [hr] at hh
          exact hh
        cases r1 with
        | ok => exact stepOK_trans env s s1 _ h1 (ih s1)
        | err e => exact h1
        | fuelOut => exact h1

theorem stepOK_initModule (env : Env) :
    ∀ fuel name s, StepOK env s (initModule env fuel name s).1 := by
  intro fuel
  induction fuel with
  | zero => intro name s; exact stepOK_refl env s
  | succ f ih =>
    have ihD := stepOK_initDeps_of env f ih
    intro name s
    by_cases hmem : name ∈ s.initialized
    · rw [initModule_mem env f name s hmem]; exact stepOK_refl env s
    · cases hl : lookupA name env.modules with
      | none => rw [initModule_notFound env f name s hmem hl]; exact stepOK_refl env s
      | some m =>
        cases hd : initDeps env f name (m.dependencies.getD []) s with
        | mk s1 r1 =>
          have h1 : StepOK env s s1 := by
            have hh := ihD name (m.dependencies.getD []) s
            rw [hd] at hh
            exact hh
          cases r1 with
          | ok =>
            have h2 : StepOK env s1 (runBody env name m s1).1 := runBody_stepOK env name m s1 hl
            cases hb : runBody env name m s1 with
            | mk s2 e? =>
              have h2' : StepOK env s1 s2 := by rw [hb] at h2; exact h2
              cases e? with
              | none =>
                rw [initModule_bodyOk env f name s hmem m hl s1 hd s2 hb]
                exact stepOK_trans env s s1 s2 h1 h2'
              | some e =>
                rw [initModule_bodyErr env f name s hmem m hl s1 hd s2 e hb]
                exact stepOK_trans env s s1 s2 h1 h2'
          | err e =>
            rw [initModule_depsFail env f name s hmem m hl s1 _ hd (by intro hc; cases hc)]
            exact h1
          | fuelOut =>
            rw [initModule_depsFail env f name s hmem m hl s1 _ hd (by intro hc; cases hc)]
            exact h1

theorem stepOK_initDeps (env : Env) (fuel : Nat) (curName : String) (L : List String)
    (s : SysState) : StepOK env s (initDeps env fuel curName L s).1 :=
  stepOK_initDeps_of env fuel (stepOK_initModule env fuel) curName L s

theorem stepOK_initAllNames (env : Env) (fuel : Nat) :
    ∀ (L : List String) (s : SysState), StepOK env s (initAllNames env fuel L s).1 := by
  intro L
  induction L with
  | nil => intro s; exact stepOK_refl env s
  | cons n rest ih =>
    intro s
    unfold initAllNames
    cases hr : initModule env fuel n s with
    | mk s1 r1 =>
      have h1 : StepOK env s s1 := by
        have hh := stepOK_initModule env fuel n s
        rw [hr] at hh
        exact hh
      cases r1 with
      | ok => exact stepOK_trans env s s1 _ h1 (ih s1)
      | err e => exact h1
      | fuelOut => exact h1

theorem initModule_ok_marked (env : Env) (fuel : Nat) (name : String) (s s' : SysState)
    (h : initModule env fuel name s = (s', Res.ok)) : name ∈ s'.initialized := by
  cases fuel with
  | zero =>
    rw [initModule_zero] at h
    injection h with h1 h2
    cases h2
  | succ f =>
    by_cases hmem : name ∈ s.initialized
    · rw [initModule_mem env f name s hmem] at h
      injection h with h1 h2
      rw [← h1]
      exact hmem
    · cases hl : lookupA name env.modules with
      | none =>
        rw [initModule_notFound env f name s hmem hl] at h
        injection h with h1 h2
        cases h2
      | some m =>
        cases hd : initDeps env f name (m.dependencies.getD []) s with
        | mk s1 r1 =>
          cases r1 with
          | ok =>
            cases hb : runBody env name m s1 with
            | mk s2 e? =>
              cases e? with
              | none =>
                rw [initModule_bodyOk env f name s hmem m hl s1 hd s2 hb] at h
                injection h with h1 h2
                obtain ⟨_, _, _, _, _, _, _, _, _, _, _, hok⟩ := runBody_spec env name m s1
                rw [hb] at hok
                have hnm := (hok rfl).1
                rw [← h1]
                exact hnm
              | some e =>
                rw [initModule_bodyErr env f name s hmem m hl s1 hd s2 e hb] at h
                injection h with h1 h2
                cases h2
          | err e =>
            rw [initModule_depsFail env f name s hmem m hl s1 _ hd (by intro hc; cases hc)] at h
            injection h with h1 h2
            cases h2
          | fuelOut =>
            rw [initModule_depsFail env f name s hmem m hl s1 _ hd (by intro hc; cases hc)] at h
            injection h with h1 h2
            cases h2

theorem initDeps_ok_marked (env : Env) (fuel : Nat) (curName : String) :
    ∀ (L : List String) (s s' : SysState), initDeps env fuel curName L s = (s', Res.ok) →
      ∀ d ∈ L, d ∈ s'.initialized := by
  intro L
  induction L with
  | nil => intro s s' _ d hd; simp at hd
  | cons d0 rest ih =>
    intro s s' h d hd
    cases hl : lookupA d0 env.modules with
    | none =>
      rw [initDeps_unreg env fuel curName d0 rest s hl] at h
      injection h with h1 h2
      cases h2
    | some md =>
      cases hr : initModule env fuel d0 s with
      | mk s1 r1 =>
        cases r1 with
        | ok =>
          rw [initDeps_consOk env fuel curName d0 rest s md hl s1 hr] at h
          rcases List.mem_cons.mp hd with hdd | hdd
          · subst hdd
            have hm1 : d ∈ s1.initialized := initModule_ok_marked env fuel d s s1 hr
            have hmono : StepOK env s1 s' := by
              have hh := stepOK_initDeps env fuel curName rest s1
              rw [h] at hh
              exact hh
            exact stepOK_mono env s1 s' hmono d hm1
          · exact ih s1 s' h d hdd
        | err e =>
          rw [initDeps_consFail env fuel curName d0 rest s md hl s1 _ hr
            (by intro hc; cases hc)] at h
          injection h with h1 h2
          cases h2
        | fuelOut =>
          rw [initDeps_consFail env fuel curName d0 rest s md hl s1 _ hr
            (by intro hc; cases hc)] at h
          injection h with h1 h2
          cases h2

theorem runBody_MInv (env : Env) (name : String) (m : ModuleDef) (s : SysState)
    (hM : MInv s) : MInv (runBody env name m s).1 := by
  obtain ⟨T, ht, habout, _, _, hor, hmarkmem, _, _, _, _, _⟩ := runBody_spec env name m s
  intro X
  constructor
  · intro hX
    rw [ht]
    rcases hor with h | ⟨ha, _, hc⟩
    · rw [h] at hX
      exact List.mem_append.mpr (Or.inl ((hM X).mp hX))
    · rw [ha] at hX
      rcases List.mem_append.mp hX with h | h
      · exact List.mem_append.mpr (Or.inl ((hM X).mp h))
      · have hXn : X = name := by simpa using h
        subst hXn
        exact List.mem_append.mpr (Or.inr hc)
  · intro hX
    rw [ht] at hX
    rcases List.mem_append.mp hX with h | h
    · have hmem : X ∈ s.initialized := (hM X).mpr h
      rcases hor with h2 | ⟨ha, _, _⟩
      · rw [h2]; exact hmem
      · rw [ha]; exact List.mem_append.mpr (Or.inl hmem)
    · exact hmarkmem X h

theorem depB_append (env : Env) (t T : List Event)
    (h1 : DepB env t)
    (h2 : ∀ B, Event.initRun B ∈ T → ∀ mB A, lookupA B env.modules = some mB →
      A ∈ mB.dependencies.getD [] → Event.marked A ∈ t) :
    DepB env (t ++ T) := by
  intro B mB A hB hA u v hsplit
  rcases List.append_eq_append_iff.mp hsplit.symm with ⟨a', ht, hd⟩ | ⟨c', hu, hT⟩
  · cases a' with
    | nil =>
      have hteq : t = u := by simpa using ht
      have hTeq : Event.initRun B :: v = T := by simpa using hd
      have hmemT : Event.initRun B ∈ T := by
        rw [← hTeq]
        exact List.mem_cons.mpr (Or.inl rfl)
      have := h2 B hmemT mB A hB hA
      rw [← hteq]
      exact this
    | cons e a'' =>
      have he : Event.initRun B = e := by
        have hh : Event.initRun B :: v = e :: (a'' ++ T) := by simpa using hd
        injection hh with hh1
      have ht' : t = u ++ Event.initRun B :: a'' := by rw [ht, he]
      exact h1 B mB A hB hA u a'' ht'
  · have hmemT : Event.initRun B ∈ T := by
      rw [hT]
      exact List.mem_append.mpr (Or.inr (List.mem_cons.mpr (Or.inl rfl)))
    have := h2 B hmemT mB A hB hA
    rw [hu]
    exact List.mem_append.mpr (Or.inl this)

theorem depB_append_noInit (env : Env) (t T : List Event)
    (h1 : DepB env t) (h2 : ∀ B, Event.initRun B ∉ T) : DepB env (t ++ T) :=
  depB_append env t T h1 (fun B hmem => absurd hmem (h2 B))

theorem good_initDeps_of (env : Env) (fuel : Nat)
    (hM : ∀ name s, MInv s ∧ DepB env s.trace →
      MInv (initModule env fuel name s).1 ∧ DepB env (initModule env fuel name s).1.trace) :
    ∀ (c : String) (L : List String) (s : SysState), MInv s ∧ DepB env s.trace →
      MInv (initDeps env fuel c L s).1 ∧ DepB env (initDeps env fuel c L s).1.trace := by
  intro c L
  induction L with
  | nil => intro s hs; exact hs
  | cons d rest ih =>
    intro s hs
    cases hl : lookupA d env.modules with
    | none => rw [initDeps_unreg env fuel c d rest s hl]; exact hs
    | some md =>
      cases hr : initModule env fuel d s with
      | mk s1 r1 =>
        have hs1 : MInv s1 ∧ DepB env s1.trace := by
          have hh := hM d s hs
          rw [hr] at hh
          exact hh
        cases r1 with
        | ok =>
          rw [initDeps_consOk env fuel c d rest s md hl s1 hr]
          exact ih s1 hs1
        | err e =>
          rw [initDeps_consFail env fuel c d rest s md hl s1 _ hr (by intro hc; cases hc)]
          exact hs1
        | fuelOut =>
          rw [initDeps_consFail env fuel c d rest s md hl s1 _ hr (by intro hc; cases hc)]
          exact hs1

theorem good_initModule (env : Env) :
    ∀ (fuel : Nat) (name : String) (s : SysState), MInv s ∧ DepB env s.trace →
      MInv (initModule env fuel name s).1 ∧ DepB env (initModule env fuel name s).1.trace := by
  intro fuel
  induction fuel with
  | zero => intro name s hs; exact hs
  | succ f ih =>
    have ihD := good_initDeps_of env f ih
    intro name s hs
    by_cases hmem : name ∈ s.initialized
    · rw [initModule_mem env f name s hmem]; exact hs
    · cases hl : lookupA name env.modules with
      | none => rw [initModule_notFound env f name s hmem hl]; exact hs
      | some m =>
        cases hd : initDeps env f name (m.dependencies.getD []) s with
        | mk s1 r1 =>
          have hs1 : MInv s1 ∧ DepB env s1.trace := by
            have hh := ihD name (m.dependencies.getD []) s hs
            rw [hd] at hh
            exact hh
          cases r1 with
          | ok =>
            have hgood : MInv (runBody env name m s1).1 ∧
                DepB env (runBody env name m s1).1.trace := by
              obtain ⟨T, hTt, hTabout, _, _, _, _, _, _, _, _, _⟩ := runBody_spec env name m s1
              constructor
              · exact runBody_MInv env name m s1 hs1.1
              · rw [hTt]
                apply depB_append env s1.trace T hs1.2
                intro B hmemB mB A hB hA
                have hBn : B = name := by
                  have := hTabout _ hmemB
                  simpa [aboutName] using this
                have hmB : mB = m := by
                  rw [hBn] at hB
                  rw [hB] at hl
                  exact Option.some.inj hl
                have hdm : A ∈ s1.initialized := by
                  apply initDeps_ok_marked env f name (m.dependencies.getD []) s s1 hd A
                  rw [← hmB]
                  exact hA
                exact (hs1.1 A).mp hdm
            cases hb : runBody env name m s1 with
            | mk s2 e? =>
              have hgood2 : MInv s2 ∧ DepB env s2.trace := by
                rw [hb] at hgood
                exact hgood
              cases e? with
              | none =>
                rw [initModule_bodyOk env f name s hmem m hl s1 hd s2 hb]
                exact hgood2
              | some e =>
                rw [initModule_bodyErr env f name s hmem m hl s1 hd s2 e hb]
                exact hgood2
          | err e =>
            rw [initModule_depsFail env f name s hmem m hl s1 _ hd (by intro hc; cases hc)]
            exact hs1
          | fuelOut =>
            rw [initModule_depsFail env f name s hmem m hl s1 _ hd (by intro hc; cases hc)]
            exact hs1

theorem good_initAllNames (env : Env) (fuel : Nat) :
    ∀ (L : List String) (s : SysState), MInv s ∧ DepB env s.trace →
      MInv (initAllNames env fuel L s).1 ∧ DepB env (initAllNames env fuel L s).1.trace := by
  intro L
  induction L with
  | nil => intro s hs; exact hs
  | cons n rest ih =>
    intro s hs
    cases hr : initModule env fuel n s with
    | mk s1 r1 =>
      have hs1 : MInv s1 ∧ DepB env s1.trace := by
        have hh := good_initModule env fuel n s hs
        rw [hr] at hh
        exact hh
      cases r1 with
      | ok =>
        rw [initAllNames_consOk env fuel n rest s s1 hr]
        exact ih s1 hs1
      | err e =>
        rw [initAllNames_consFail env fuel n rest s s1 _ hr (by intro hc; cases hc)]
        exact hs1
      | fuelOut =>
        rw [initAllNames_consFail env fuel n rest s s1 _ hr (by intro hc; cases hc)]
        exact hs1

theorem trigger_good (env : Env) (event : String) (mn : Option String) (s : SysState)
    (hs : MInv s ∧ DepB env s.trace) :
    MInv (triggerLifecycleHooks env event mn s).1 ∧
      DepB env (triggerLifecycleHooks env event mn s).1.trace := by
  obtain ⟨hi, _, T, ht, he⟩ := trigger_state env event mn s
  constructor
  · intro X
    rw [hi, ht]
    constructor
    · intro h
      exact List.mem_append.mpr (Or.inl ((hs.1 X).mp h))
    · intro h
      rcases List.mem_append.mp h with h | h
      · exact (hs.1 X).mpr h
      · obtain ⟨j, hj⟩ := he _ h
        cases hj
  · rw [ht]
    apply depB_append_noInit env s.trace T hs.2
    intro B hmem
    obtain ⟨j, hj⟩ := he _ hmem
    cases hj

theorem good_initModules (env : Env) (fuel : Nat) (prev : List String) :
    MInv (initModules env fuel prev).1 ∧ DepB env (initModules env fuel prev).1.trace := by
  have hs0 : MInv { initialized := [], services := [], trace := ([] : List Event) } ∧
      DepB env ([] : List Event) := by
    constructor
    · intro X; simp
    · intro B mB A _ _ u v hsplit
      exact absurd hsplit (by simp)
  have hs1 := trigger_good env "beforeAllInit" none
    { initialized := [], services := [], trace := [] } hs0
  cases hr1 : (triggerLifecycleHooks env "beforeAllInit" none
      { initialized := [], services := [], trace := [] }) with
  | mk s1 r1 =>
    have hs1' : MInv s1 ∧ DepB env s1.trace := by rw [hr1] at hs1; exact hs1
    cases r1 with
    | some e =>
      rw [initModules_hookFail env fuel prev s1 e hr1]
      exact hs1'
    | none =>
      have hloop := good_initAllNames env fuel (env.modules.map Prod.fst) s1 hs1'
      cases hr2 : initAllNames env fuel (env.modules.map Prod.fst) s1 with
      | mk s2 r2 =>
        have hs2 : MInv s2 ∧ DepB env s2.trace := by rw [hr2] at hloop; exact hloop
        cases r2 with
        | ok =>
          have hs3 := trigger_good env "afterAllInit" none s2 hs2
          cases hr3 : (triggerLifecycleHooks env "afterAllInit" none s2) with
          | mk s3 r3 =>
            have hs3' : MInv s3 ∧ DepB env s3.trace := by rw [hr3] at hs3; exact hs3
            cases r3 with
            | some e =>
              rw [initModules_afterFail env fuel prev s1 s2 s3 e hr1 hr2 hr3]
              exact hs3'
            | none =>
              rw [initModules_allOk env fuel prev s1 s2 s3 hr1 hr2 hr3]
              exact hs3'
        | err e =>
          rw [initModules_loopFail env fuel prev s1 s2 _ hr1 hr2 (by intro hc; cases hc)]
          exact hs2
        | fuelOut =>
          rw [initModules_loopFail env fuel prev s1 s2 _ hr1 hr2 (by intro hc; cases hc)]
          exact hs2

/-- C1: in every terminating `initializeModules` run (any fuel, any
result), whenever a registered module B's `initialize` callback is
invoked (an `initRun B` event in the trace), every module A in B's
declared dependencies was added to the Initialized Set strictly earlier:
its `marked A` event lies in the trace portion preceding the invocation.
Dependencies are resolved recursively, depth first, in declared order,
before the dependent module's own initialisation body runs. -/
theorem c1_dep_marked_before_initRun
    (env : Env) (fuel : Nat) (prev : List String) (s' : SysState) (r : Res)
    (hrun : initModules env fuel prev = (s', r))
    (B : String) (mB : ModuleDef) (A : String)
    (hB : lookupA B env.modules = some mB) (hA : A ∈ mB.dependencies.getD [])
    (u v : List Event) (hsplit : s'.trace = u ++ Event.initRun B :: v) :
    Event.marked A ∈ u := by
  have hg := good_initModules env fuel prev
  rw [hrun] at hg
  exact hg.2 B mB A hB hA u v hsplit

/-- C1 witness: in the concrete logger/db run, the decomposition of the
trace at `initRun "db"` has `marked "logger"` strictly earlier. -/
theorem c1_witness :
    Event.marked "logger" ∈ [Event.initRun "logger", Event.marked "logger"] :=
  c1_dep_marked_before_initRun envLoggerDb 10 []
    { initialized := ["logger", "db"], services := [],
      trace := [Event.initRun "logger", Event.marked "logger", Event.initRun "db",
        Event.marked "db"] }
    Res.ok (by decide)
    "db"
    { id := some "db", name := some "DB", dependencies := some ["logger"], initFn := some true }
    "logger" (by decide) (by decide)
    [Event.initRun "logger", Event.marked "logger"] [Event.marked "db"] rfl

theorem ranked_initDeps_of (env : Env) (rank : String → Nat) (fuel : Nat)
    (hM : ∀ root s, ∃ T, (initModule env fuel root s).1.trace = s.trace ++ T ∧
      (∀ ev ∈ T, ∀ x, aboutName ev = some x → rank x ≤ rank root) ∧
      (∀ x, x ∈ (initModule env fuel root s).1.initialized →
        x ∈ s.initialized ∨ rank x ≤ rank root)) :
    ∀ (c : String) (L : List String) (s : SysState),
      ∃ T, (initDeps env fuel c L s).1.trace = s.trace ++ T ∧
        (∀ ev ∈ T, ∀ x, aboutName ev = some x → ∃ d ∈ L, rank x ≤ rank d) ∧
        (∀ x, x ∈ (initDeps env fuel c L s).1.initialized →
          x ∈ s.initialized ∨ ∃ d ∈ L, rank x ≤ rank d) := by
  intro c L
  induction L with
  | nil =>
    intro s
    exact ⟨[], by simp [initDeps_nil], by simp, fun x hx => Or.inl hx⟩
  | cons d rest ihL =>
    intro s
    cases hl : lookupA d env.modules with
    | none =>
      rw [initDeps_unreg env fuel c d rest s hl]
      exact ⟨[], by simp, by simp, fun x hx => Or.inl hx⟩
    | some md =>
      cases hr : initModule env fuel d s with
      | mk s1 r1 =>
        obtain ⟨T1, hT1, hev1, hin1⟩ := hM d s
        rw [hr] at hT1 hin1
        cases r1 with
        | ok =>
          rw [initDeps_consOk env fuel c d rest s md hl s1 hr]
          obtain ⟨T2, hT2, hev2, hin2⟩ := ihL s1
          refine ⟨T1 ++ T2, ?_, ?_, ?_⟩
          · rw [hT2, hT1, List.append_assoc]
          · intro ev hev x hx
            rcases List.mem_append.mp hev with h | h
            · exact ⟨d, by simp, hev1 ev h x hx⟩
            · obtain ⟨d', hd', hrk'⟩ := hev2 ev h x hx
              exact ⟨d', by simp [hd'], hrk'⟩
          · intro x hx
            rcases hin2 x hx with h | ⟨d', hd', hrk'⟩
            · rcases hin1 x h with h' | h'
              · exact Or.inl h'
              · exact Or.inr ⟨d, by simp, h'⟩
            · exact Or.inr ⟨d', by simp [hd'], hrk'⟩
        | err e =>
          rw [initDeps_consFail env fuel c d rest s md hl s1 _ hr (by intro hc; cases hc)]
          refine ⟨T1, hT1, ?_, ?_⟩
          · intro ev hev x hx
            exact ⟨d, by simp, hev1 ev hev x hx⟩
          · intro x hx
            rcases hin1 x hx with h | h
            · exact Or.inl h
            · exact Or.inr ⟨d, by simp, h⟩
        | fuelOut =>
          rw [initDeps_consFail env fuel c d rest s md hl s1 _ hr (by intro hc; cases hc)]
          refine ⟨T1, hT1, ?_, ?_⟩
          · intro ev hev x hx
            exact ⟨d, by simp, hev1 ev hev x hx⟩
          · intro x hx
            rcases hin1 x hx with h | h
            · exact Or.inl h
            · exact Or.inr ⟨d, by simp, h⟩

theorem ranked_initModule (env : Env) (rank : String → Nat) (hrk : Ranked env rank) :
    ∀ (fuel : Nat) (root : String) (s : SysState),
      ∃ T, (initModule env fuel root s).1.trace = s.trace ++ T ∧
        (∀ ev ∈ T, ∀ x, aboutName ev = some x → rank x ≤ rank root) ∧
        (∀ x, x ∈ (initModule env fuel root s).1.initialized →
          x ∈ s.initialized ∨ rank x ≤ rank root) := by
  intro fuel
  induction fuel with
  | zero =>
    intro root s
    exact ⟨[], by simp [initModule_zero], by simp, fun x hx => Or.inl hx⟩
  | succ f ih =>
    have ihD := ranked_initDeps_of env rank f ih
    intro root s
    by_cases hmem : root ∈ s.initialized
    · rw [initModule_mem env f root s hmem]
      exact ⟨[], by simp, by simp, fun x hx => Or.inl hx⟩
    · cases hl : lookupA root env.modules with
      | none =>
        rw [initModule_notFound env f root s hmem hl]
        exact ⟨[], by simp, by simp, fun x hx => Or.inl hx⟩
      | some m =>
        cases hd : initDeps env f root (m.dependencies.getD []) s with
        | mk s1 r1 =>
          obtain ⟨T1, hT1, hev1, hin1⟩ := ihD root (m.dependencies.getD []) s
          rw [hd] at hT1 hin1
          have hbound : ∀ d ∈ m.dependencies.getD [], rank d < rank root := hrk root m hl
          have hev1' : ∀ ev ∈ T1, ∀ x, aboutName ev = some x → rank x ≤ rank root := by
            intro ev hev x hx
            obtain ⟨d, hdmem, hrk'⟩ := hev1 ev hev x hx
            exact Nat.le_of_lt (Nat.lt_of_le_of_lt hrk' (hbound d hdmem))
          have hin1' : ∀ x, x ∈ s1.initialized → x ∈ s.initialized ∨ rank x ≤ rank root := by
            intro x hx
            rcases hin1 x hx with h | ⟨d, hdmem, hrk'⟩
            · exact Or.inl h
            · exact Or.inr (Nat.le_of_lt (Nat.lt_of_le_of_lt hrk' (hbound d hdmem)))
          cases r1 with
          | ok =>
            obtain ⟨T, hTt, hTabout, _, _, hTor, _, _, _, _, _, _⟩ := runBody_spec env root m s1
            cases hb : runBody env root m s1 with
            | mk s2 e? =>
              rw [hb] at hTt hTor
              have hT2 : s2.trace = s.trace ++ (T1 ++ T) := by
                rw [hTt, hT1, List.append_assoc]
              have hev2 : ∀ ev ∈ T1 ++ T, ∀ x, aboutName ev = some x → rank x ≤ rank root := by
                intro ev hev x hx
                rcases List.mem_append.mp hev with h | h
                · exact hev1' ev h x hx
                · have := hTabout ev h
                  rw [this] at hx
                  have hxr : x = root := (Option.some.inj hx).symm
                  rw [hxr]
              have hin2 : ∀ x, x ∈ s2.initialized → x ∈ s.initialized ∨ rank x ≤ rank root := by
                intro x hx
                rcases hTor with h | ⟨ha, _, _⟩
                · rw [h] at hx
                  exact hin1' x hx
                · rw [ha] at hx
                  rcases List.mem_append.mp hx with h | h
                  · exact hin1' x h
                  · have hxr : x = root := by simpa using h
                    rw [hxr]
                    exact Or.inr (Nat.le_refl _)
              cases e? with
              | none =>
                rw [initModule_bodyOk env f root s hmem m hl s1 hd s2 hb]
                exact ⟨T1 ++ T, hT2, hev2, hin2⟩
              | some e =>
                rw [initModule_bodyErr env f root s hmem m hl s1 hd s2 e hb]
                exact ⟨T1 ++ T, hT2, hev2, hin2⟩
          | err e =>
            rw [initModule_depsFail env f root s hmem m hl s1 _ hd (by intro hc; cases hc)]
            exact ⟨T1, hT1, hev1', hin1'⟩
          | fuelOut =>
            rw [initModule_depsFail env f root s hmem m hl s1 _ hd (by intro hc; cases hc)]
            exact ⟨T1, hT1, hev1', hin1'⟩

theorem ranked_initDeps (env : Env) (rank : String → Nat) (hrk : Ranked env rank)
    (fuel : Nat) :
    ∀ (c : String) (L : List String) (s : SysState),
      ∃ T, (initDeps env fuel c L s).1.trace = s.trace ++ T ∧
        (∀ ev ∈ T, ∀ x, aboutName ev = some x → ∃ d ∈ L, rank x ≤ rank d) ∧
        (∀ x, x ∈ (initDeps env fuel c L s).1.initialized →
          x ∈ s.initialized ∨ ∃ d ∈ L, rank x ≤ rank d) :=
  ranked_initDeps_of env rank fuel (ranked_initModule env rank hrk fuel)

theorem trigger_cnt (env : Env) (event : String) (mn : Option String) (s : SysState)
    (X : String) :
    (triggerLifecycleHooks env event mn s).1.trace.count (Event.initRun X) =
      s.trace.count (Event.initRun X) := by
  obtain ⟨_, _, T, ht, he⟩ := trigger_state env event mn s
  rw [ht, List.count_append]
  have hnm : Event.initRun X ∉ T := by
    apply notMem_of_all T _ (fun ev => ∃ j, ev = Event.hookRun event mn j) he
    rintro ⟨j, hj⟩; cases hj
  rw [List.count_eq_zero.mpr hnm]
  rfl

theorem trigger_cntOK (env : Env) (event : String) (mn : Option String) (s : SysState)
    (hs : CntOK s) : CntOK (triggerLifecycleHooks env event mn s).1 := by
  intro X
  obtain ⟨hi, _, _⟩ := trigger_state env event mn s
  rw [trigger_cnt env event mn s X, hi]
  exact hs X

theorem cnt_initDeps_of (env : Env) (fuel : Nat)
    (hM : ∀ root s, CntOK s →
      (∀ X, ((initModule env fuel root s).1).trace.count (Event.initRun X) ≤ 1) ∧
      ((initModule env fuel root s).2 = Res.ok → CntOK (initModule env fuel root s).1)) :
    ∀ (c : String) (L : List String) (s : SysState), CntOK s →
      (∀ X, ((initDeps env fuel c L s).1).trace.count (Event.initRun X) ≤ 1) ∧
      ((initDeps env fuel c L s).2 = Res.ok → CntOK (initDeps env fuel c L s).1) := by
  intro c L
  induction L with
  | nil => intro s hs; exact ⟨fun X => (hs X).1, fun _ => hs⟩
  | cons d rest ih =>
    intro s hs
    cases hl : lookupA d env.modules with
    | none =>
      rw [initDeps_unreg env fuel c d rest s hl]
      exact ⟨fun X => (hs X).1, fun hok => by simp at hok⟩
    | some md =>
      cases hr : initModule env fuel d s with
      | mk s1 r1 =>
        have hm := hM d s hs
        rw [hr] at hm
        cases r1 with
        | ok =>
          rw [initDeps_consOk env fuel c d rest s md hl s1 hr]
          exact ih s1 (hm.2 rfl)
        | err e =>
          rw [initDeps_consFail env fuel c d rest s md hl s1 _ hr (by intro hc; cases hc)]
          exact ⟨fun X => hm.1 X, fun hok => by simp at hok⟩
        | fuelOut =>
          rw [initDeps_consFail env fuel c d rest s md hl s1 _ hr (by intro hc; cases hc)]
          exact ⟨fun X => hm.1 X, fun hok => by simp at hok⟩

theorem cnt_initModule (env : Env) (rank : String → Nat) (hrk : Ranked env rank) :
    ∀ (fuel : Nat) (root : String) (s : SysState), CntOK s →
      (∀ X, ((initModule env fuel root s).1).trace.count (Event.initRun X) ≤ 1) ∧
      ((initModule env fuel root s).2 = Res.ok → CntOK (initModule env fuel root s).1) := by
  intro fuel
  induction fuel with
  | zero =>
    intro root s hs
    rw [initModule_zero]
    exact ⟨fun X => (hs X).1, fun hok => by simp at hok⟩
  | succ f ih =>
    have ihD := cnt_initDeps_of env f ih
    intro root s hs
    by_cases hmem : root ∈ s.initialized
    · rw [initModule_mem env f root s hmem]
      exact ⟨fun X => (hs X).1, fun _ => hs⟩
    · cases hl : lookupA root env.modules with
      | none =>
        rw [initModule_notFound env f root s hmem hl]
        exact ⟨fun X => (hs X).1, fun hok => by simp at hok⟩
      | some m =>
        cases hd : initDeps env f root (m.dependencies.getD []) s with
        | mk s1 r1 =>
          have hdep := ihD root (m.dependencies.getD []) s hs
          rw [hd] at hdep
          cases r1 with
          | ok =>
            have hs1 : CntOK s1 := hdep.2 rfl
            have hroot1 : root ∉ s1.initialized := by
              intro hmem1
              obtain ⟨Tr, hTr, hevr, hinr⟩ :=
                ranked_initDeps env rank hrk f root (m.dependencies.getD []) s
              rw [hd] at hinr
              rcases hinr root hmem1 with h | ⟨d, hdmem, hrk'⟩
              · exact hmem h
              · exact Nat.lt_irrefl _ (Nat.lt_of_le_of_lt hrk' (hrk root m hl d hdmem))
            obtain ⟨T, hTt, hTabout, hTle, _, hTor, _, _, _, _, _, hTok⟩ :=
              runBody_spec env root m s1
            cases hb : runBody env root m s1 with
            | mk s2 e? =>
              rw [hb] at hTt hTor hTok
              have hcnt2 : ∀ X, s2.trace.count (Event.initRun X) ≤ 1 := by
                intro X
                rw [hTt, List.count_append]
                by_cases hX : X = root
                · rw [hX, (hs1 root).2 hroot1]
                  simpa using hTle
                · have hnotT : Event.initRun X ∉ T := by
                    apply notMem_of_all T _ (fun ev => aboutName ev = some root) hTabout
                    intro hcon
                    have hXr : X = root := by simpa [aboutName] using hcon
                    exact hX hXr
                  rw [List.count_eq_zero.mpr hnotT]
                  have := (hs1 X).1
                  omega
              cases e? with
              | none =>
                rw [initModule_bodyOk env f root s hmem m hl s1 hd s2 hb]
                refine ⟨hcnt2, fun _ => ?_⟩
                intro X
                refine ⟨hcnt2 X, ?_⟩
                intro hXnot
                have hX1 : X ∉ s1.initialized := by
                  intro hmem1
                  apply hXnot
                  rcases hTor with h | ⟨ha, _, _⟩
                  · rw [h]; exact hmem1
                  · rw [ha]; exact List.mem_append.mpr (Or.inl hmem1)
                have hXne : X ≠ root := by
                  intro heq
                  apply hXnot
                  rw [heq]
                  exact (hTok rfl).1
                have hnotT : Event.initRun X ∉ T := by
                  apply notMem_of_all T _ (fun ev => aboutName ev = some root) hTabout
                  intro hcon
                  have hXr : X = root := by simpa [aboutName] using hcon
                  exact hXne hXr
                rw [hTt, List.count_append, (hs1 X).2 hX1, List.count_eq_zero.mpr hnotT]
              | some e =>
                rw [initModule_bodyErr env f root s hmem m hl s1 hd s2 e hb]
                exact ⟨hcnt2, fun hok => by simp at hok⟩
          | err e =>
            rw [initModule_depsFail env f root s hmem m hl s1 _ hd (by intro hc; cases hc)]
            exact ⟨fun X => hdep.1 X, fun hok => by simp at hok⟩
          | fuelOut =>
            rw [initModule_depsFail env f root s hmem m hl s1 _ hd (by intro hc; cases hc)]
            exact ⟨fun X => hdep.1 X, fun hok => by simp at hok⟩

theorem cnt_initAllNames (env : Env) (rank : String → Nat) (hrk : Ranked env rank)
    (fuel : Nat) :
    ∀ (L : List String) (s : SysState), CntOK s →
      (∀ X, ((initAllNames env fuel L s).1).trace.count (Event.initRun X) ≤ 1) ∧
      ((initAllNames env fuel L s).2 = Res.ok → CntOK (initAllNames env fuel L s).1) := by
  intro L
  induction L with
  | nil => intro s hs; exact ⟨fun X => (hs X).1, fun _ => hs⟩
  | cons n rest ih =>
    intro s hs
    cases hr : initModule env fuel n s with
    | mk s1 r1 =>
      have hm := cnt_initModule env rank hrk fuel n s hs
      rw [hr] at hm
      cases r1 with
      | ok =>
        rw [initAllNames_consOk env fuel n rest s s1 hr]
        exact ih s1 (hm.2 rfl)
      | err e =>
        rw [initAllNames_consFail env fuel n rest s s1 _ hr (by intro hc; cases hc)]
        exact ⟨fun X => hm.1 X, fun hok => by simp at hok⟩
      | fuelOut =>
        rw [initAllNames_consFail env fuel n rest s s1 _ hr (by intro hc; cases hc)]
        exact ⟨fun X => hm.1 X, fun hok => by simp at hok⟩

theorem amo_initModules (env : Env) (rank : String → Nat) (hrk : Ranked env rank)
    (fuel : Nat) (prev : List String) :
    (∀ X, ((initModules env fuel prev).1).trace.count (Event.initRun X) ≤ 1) ∧
    ((initModules env fuel prev).2 = Res.ok → CntOK (initModules env fuel prev).1) := by
  have hs0 : CntOK { initialized := [], services := [], trace := ([] : List Event) } := by
    intro X; simp
  have hs1all := trigger_cntOK env "beforeAllInit" none
    { initialized := [], services := [], trace := [] } hs0
  cases hr1 : (triggerLifecycleHooks env "beforeAllInit" none
      { initialized := [], services := [], trace := [] }) with
  | mk s1 r1 =>
    have hs1 : CntOK s1 := by rw [hr1] at hs1all; exact hs1all
    cases r1 with
    | some e =>
      rw [initModules_hookFail env fuel prev s1 e hr1]
      exact ⟨fun X => (hs1 X).1, fun hok => by simp at hok⟩
    | none =>
      have hloop := cnt_initAllNames env rank hrk fuel (env.modules.map Prod.fst) s1 hs1
      cases hr2 : initAllNames env fuel (env.modules.map Prod.fst) s1 with
      | mk s2 r2 =>
        rw [hr2] at hloop
        cases r2 with
        | ok =>
          have hs2 : CntOK s2 := hloop.2 rfl
          have hs3all := trigger_cntOK env "afterAllInit" none s2 hs2
          cases hr3 : (triggerLifecycleHooks env "afterAllInit" none s2) with
          | mk s3 r3 =>
            have hs3 : CntOK s3 := by rw [hr3] at hs3all; exact hs3all
            cases r3 with
            | some e =>
              rw [initModules_afterFail env fuel prev s1 s2 s3 e hr1 hr2 hr3]
              exact ⟨fun X => (hs3 X).1, fun hok => by simp at hok⟩
            | none =>
              rw [initModules_allOk env fuel prev s1 s2 s3 hr1 hr2 hr3]
              exact ⟨fun X => (hs3 X).1, fun _ => hs3⟩
        | err e =>
          rw [initModules_loopFail env fuel prev s1 s2 _ hr1 hr2 (by intro hc; cases hc)]
          exact ⟨fun X => hloop.1 X, fun hok => by simp at hok⟩
        | fuelOut =>
          rw [initModules_loopFail env fuel prev s1 s2 _ hr1 hr2 (by intro hc; cases hc)]
          exact ⟨fun X => hloop.1 X, fun hok => by simp at hok⟩

theorem ranked_envLoggerDb : Ranked envLoggerDb (fun n => if n = "db" then 1 else 0) := by
  intro n m hm d hd
  simp only [envLoggerDb, lookupA] at hm
  by_cases h1 : "logger" = n
  · rw [if_pos h1] at hm
    injection hm with hm1
    rw [← hm1] at hd
    simp at hd
  · rw [if_neg h1] at hm
    by_cases h2 : "db" = n
    · rw [if_pos h2] at hm
      injection hm with hm1
      rw [← hm1] at hd
      simp at hd
      rw [hd, ← h2]
      decide
    · rw [if_neg h2] at hm
      exact Option.noConfusion hm

/-- C2: a module's `initialize` callback runs at most once per
`initializeModules` call.  First: calling `initializeModule` on a name
already in the Initialized Set is a complete no-op — the state, trace
included, is returned unchanged, so no hooks fire and no `initialize`,
route mounting or service publication happens.  Second: in any run over a
registry whose dependency graph admits a topological ranking (no cycles —
the only registries on which the guard-less recursion terminates), each
module's `initRun` event occurs at most once in the final trace, no
matter how many modules name it as a dependency or whether it also
appears in registration order. -/
theorem c2_initialize_at_most_once :
    (∀ (env : Env) (fuel : Nat) (name : String) (s : SysState), name ∈ s.initialized →
      initModule env (fuel + 1) name s = (s, Res.ok)) ∧
    (∀ (env : Env) (rank : String → Nat), Ranked env rank →
      ∀ (fuel : Nat) (prev : List String) (s' : SysState) (r : Res),
        initModules env fuel prev = (s', r) →
        ∀ X, s'.trace.count (Event.initRun X) ≤ 1) := by
  constructor
  · intro env fuel name s hmem
    exact initModule_mem env fuel name s hmem
  · intro env rank hrk fuel prev s' r hrun X
    have hh := (amo_initModules env rank hrk fuel prev).1 X
    rw [hrun] at hh
    exact hh

/-- C2 witness: the no-op on an already-initialised name, and the
at-most-once count in the concrete logger/db run. -/
theorem c2_witness :
    initModule envLoggerDb 3 "logger"
        { initialized := ["logger"], services := [], trace := [] } =
      ({ initialized := ["logger"], services := [], trace := [] }, Res.ok) ∧
    ([Event.initRun "logger", Event.marked "logger", Event.initRun "db",
        Event.marked "db"] : List Event).count (Event.initRun "logger") ≤ 1 := by
  constructor
  · exact c2_initialize_at_most_once.1 envLoggerDb 2 "logger"
      { initialized := ["logger"], services := [], trace := [] } (by decide)
  · exact c2_initialize_at_most_once.2 envLoggerDb (fun n => if n = "db" then 1 else 0)
      ranked_envLoggerDb 10 []
      { initialized := ["logger", "db"], services := [],
        trace := [Event.initRun "logger", Event.marked "logger", Event.initRun "db",
          Event.marked "db"] }
      Res.ok (by decide) "logger"

theorem lookupA_some_mem {α : Type} (k : String) (v : α) :
    ∀ l : List (String × α), lookupA k l = some v → k ∈ l.map Prod.fst := by
  intro l
  induction l with
  | nil => intro h; cases h
  | cons p rest ih =>
    obtain ⟨k', v'⟩ := p
    intro h
    by_cases hk : k' = k
    · simp [hk]
    · simp only [lookupA, if_neg hk] at h
      simp [ih h]

theorem stepOK_trace_mono (env : Env) (s s' : SysState) (h : StepOK env s s') :
    ∀ ev ∈ s.trace, ev ∈ s'.trace := by
  obtain ⟨δ, T, _, ht, _, _, _⟩ := h
  intro ev hev
  rw [ht]
  exact List.mem_append.mpr (Or.inl hev)

theorem initAllNames_ok_marked (env : Env) (fuel : Nat) :
    ∀ (L : List String) (s s' : SysState), initAllNames env fuel L s = (s', Res.ok) →
      ∀ n ∈ L, n ∈ s'.initialized := by
  intro L
  induction L with
  | nil => intro s s' _ n hn; simp at hn
  | cons n0 rest ih =>
    intro s s' h n hn
    cases hr : initModule env fuel n0 s with
    | mk s1 r1 =>
      cases r1 with
      | ok =>
        rw [initAllNames_consOk env fuel n0 rest s s1 hr] at h
        rcases List.mem_cons.mp hn with hdd | hdd
        · have hm1 : n ∈ s1.initialized := hdd ▸ initModule_ok_marked env fuel n0 s s1 hr
          have hmono : StepOK env s1 s' := by
            have hh := stepOK_initAllNames env fuel rest s1
            rw [h] at hh
            exact hh
          exact stepOK_mono env s1 s' hmono n hm1
        · exact ih s1 s' h n hdd
      | err e =>
        rw [initAllNames_consFail env fuel n0 rest s s1 _ hr (by intro hc; cases hc)] at h
        injection h with h1 h2
        cases h2
      | fuelOut =>
        rw [initAllNames_consFail env fuel n0 rest s s1 _ hr (by intro hc; cases hc)] at h
        injection h with h1 h2
        cases h2

theorem initModules_ok_inv (env : Env) (fuel : Nat) (prev : List String) (s' : SysState)
    (hrun : initModules env fuel prev = (s', Res.ok)) :
    ∃ s1 s2, triggerLifecycleHooks env "beforeAllInit" none
        { initialized := [], services := [], trace := [] } = (s1, none) ∧
      initAllNames env fuel (env.modules.map Prod.fst) s1 = (s2, Res.ok) ∧
      triggerLifecycleHooks env "afterAllInit" none s2 = (s', none) := by
  cases hr1 : (triggerLifecycleHooks env "beforeAllInit" none
      { initialized := [], services := [], trace := [] }) with
  | mk s1 r1 =>
    cases r1 with
    | some e =>
      rw [initModules_hookFail env fuel prev s1 e hr1] at hrun
      injection hrun with h1 h2
      cases h2
    | none =>
      cases hr2 : initAllNames env fuel (env.modules.map Prod.fst) s1 with
      | mk s2 r2 =>
        cases r2 with
        | ok =>
          cases hr3 : (triggerLifecycleHooks env "afterAllInit" none s2) with
          | mk s3 r3 =>
            cases r3 with
            | some e =>
              rw [initModules_afterFail env fuel prev s1 s2 s3 e hr1 hr2 hr3] at hrun
              injection hrun with h1 h2
              cases h2
            | none =>
              rw [initModules_allOk env fuel prev s1 s2 s3 hr1 hr2 hr3] at hrun
              injection hrun with h1 h2
              rw [h1] at hr3
              exact ⟨s1, s2, rfl, hr2, hr3⟩
        | err e =>
          rw [initModules_loopFail env fuel prev s1 s2 _ hr1 hr2 (by intro hc; cases hc)] at hrun
          injection hrun with h1 h2
          cases h2
        | fuelOut =>
          rw [initModules_loopFail env fuel prev s1 s2 _ hr1 hr2 (by intro hc; cases hc)] at hrun
          injection hrun with h1 h2
          cases h2

theorem mri_initDeps_of (env : Env) (fuel : Nat)
    (hM : ∀ (root : String) (s : SysState) (X : String) (mX : ModuleDef),
      lookupA X env.modules = some mX → mX.initFn.isSome = true →
      X ∈ (initModule env fuel root s).1.initialized → X ∉ s.initialized →
      Event.initRun X ∈ (initModule env fuel root s).1.trace) :
    ∀ (c : String) (L : List String) (s : SysState) (X : String) (mX : ModuleDef),
      lookupA X env.modules = some mX → mX.initFn.isSome = true →
      X ∈ (initDeps env fuel c L s).1.initialized → X ∉ s.initialized →
      Event.initRun X ∈ (initDeps env fuel c L s).1.trace := by
  intro c L
  induction L with
  | nil => intro s X mX _ _ hmem hnot; exact absurd hmem hnot
  | cons d rest ih =>
    intro s X mX hlX hsome hmem hnot
    cases hl : lookupA d env.modules with
    | none =>
      rw [initDeps_unreg env fuel c d rest s hl] at hmem ⊢
      exact absurd hmem hnot
    | some md =>
      cases hr : initModule env fuel d s with
      | mk s1 r1 =>
        cases r1 with
        | ok =>
          rw [initDeps_consOk env fuel c d rest s md hl s1 hr] at hmem ⊢
          by_cases hX1 : X ∈ s1.initialized
          · have hin : Event.initRun X ∈ s1.trace := by
              have hh := hM d s X mX hlX hsome
              rw [hr] at hh
              exact hh hX1 hnot
            have hmono : StepOK env s1 (initDeps env fuel c rest s1).1 :=
              stepOK_initDeps env fuel c rest s1
            exact stepOK_trace_mono env s1 _ hmono _ hin
          · exact ih s1 X mX hlX hsome hmem hX1
        | err e =>
          rw [initDeps_consFail env fuel c d rest s md hl s1 _ hr
            (by intro hc; cases hc)] at hmem ⊢
          have hh := hM d s X mX hlX hsome
          rw [hr] at hh
          exact hh hmem hnot
        | fuelOut =>
          rw [initDeps_consFail env fuel c d rest s md hl s1 _ hr
            (by intro hc; cases hc)] at hmem ⊢
          have hh := hM d s X mX hlX hsome
          rw [hr] at hh
          exact hh hmem hnot

theorem mri_initModule (env : Env) :
    ∀ (fuel : Nat) (root : String) (s : SysState) (X : String) (mX : ModuleDef),
      lookupA X env.modules = some mX → mX.initFn.isSome = true →
      X ∈ (initModule env fuel root s).1.initialized → X ∉ s.initialized →
      Event.initRun X ∈ (initModule env fuel root s).1.trace := by
  intro fuel
  induction fuel with
  | zero =>
    intro root s X mX _ _ hmem hnot
    rw [initModule_zero] at hmem
    exact absurd hmem hnot
  | succ f ih =>
    have ihD := mri_initDeps_of env f ih
    intro root s X mX hlX hsome hmem hnot
    by_cases hroot : root ∈ s.initialized
    · rw [initModule_mem env f root s hroot] at hmem ⊢
      exact absurd hmem hnot
    · cases hl : lookupA root env.modules with
      | none =>
        rw [initModule_notFound env f root s hroot hl] at hmem ⊢
        exact absurd hmem hnot
      | some m =>
        cases hd : initDeps env f root (m.dependencies.getD []) s with
        | mk s1 r1 =>
          cases r1 with
          | ok =>
            obtain ⟨T, hTt, hTabout, _, _, hTor, _, h7, _, _, _, _⟩ :=
              runBody_spec env root m s1
            cases hb : runBody env root m s1 with
            | mk s2 e? =>
              rw [hb] at hTt hTor
              have hcore : X ∈ s2.initialized → Event.initRun X ∈ s2.trace := by
                intro hmem2
                by_cases hX1 : X ∈ s1.initialized
                · have hin : Event.initRun X ∈ s1.trace := by
                    have hh := ihD root (m.dependencies.getD []) s X mX hlX hsome
                    rw [hd] at hh
                    exact hh hX1 hnot
                  rw [hTt]
                  exact List.mem_append.mpr (Or.inl hin)
                · rcases hTor with h | ⟨ha, _, hc⟩
                  · rw [h] at hmem2
                    exact absurd hmem2 hX1
                  · rw [ha] at hmem2
                    rcases List.mem_append.mp hmem2 with h | h
                    · exact absurd h hX1
                    · have hXr : X = root := by simpa using h
                      have hm : m = mX := by
                        rw [hXr] at hlX
                        rw [hlX] at hl
                        exact (Option.some.inj hl).symm
                      have hinT : Event.initRun root ∈ T :=
                        h7 (by rw [hm]; exact hsome) hc
                      rw [hTt, hXr]
                      exact List.mem_append.mpr (Or.inr hinT)
              cases e? with
              | none =>
                rw [initModule_bodyOk env f root s hroot m hl s1 hd s2 hb] at hmem ⊢
                exact hcore hmem
              | some e =>
                rw [initModule_bodyErr env f root s hroot m hl s1 hd s2 e hb] at hmem ⊢
                exact hcore hmem
          | err e =>
            rw [initModule_depsFail env f root s hroot m hl s1 _ hd
              (by intro hc; cases hc)] at hmem ⊢
            have hh := ihD root (m.dependencies.getD []) s X mX hlX hsome
            rw [hd] at hh
            exact hh hmem hnot
          | fuelOut =>
            rw [initModule_depsFail env f root s hroot m hl s1 _ hd
              (by intro hc; cases hc)] at hmem ⊢
            have hh := ihD root (m.dependencies.getD []) s X mX hlX hsome
            rw [hd] at hh
            exact hh hmem hnot

theorem mri_initAllNames (env : Env) (fuel : Nat) :
    ∀ (L : List String) (s : SysState) (X : String) (mX : ModuleDef),
      lookupA X env.modules = some mX → mX.initFn.isSome = true →
      X ∈ (initAllNames env fuel L s).1.initialized → X ∉ s.initialized →
      Event.initRun X ∈ (initAllNames env fuel L s).1.trace := by
  intro L
  induction L with
  | nil => intro s X mX _ _ hmem hnot; exact absurd hmem hnot
  | cons n rest ih =>
    intro s X mX hlX hsome hmem hnot
    cases hr : initModule env fuel n s with
    | mk s1 r1 =>
      cases r1 with
      | ok =>
        rw [initAllNames_consOk env fuel n rest s s1 hr] at hmem ⊢
        by_cases hX1 : X ∈ s1.initialized
        · have hin : Event.initRun X ∈ s1.trace := by
            have hh := mri_initModule env fuel n s X mX hlX hsome
            rw [hr] at hh
            exact hh hX1 hnot
          have hmono : StepOK env s1 (initAllNames env fuel rest s1).1 :=
            stepOK_initAllNames env fuel rest s1
          exact stepOK_trace_mono env s1 _ hmono _ hin
        · exact ih s1 X mX hlX hsome hmem hX1
      | err e =>
        rw [initAllNames_consFail env fuel n rest s s1 _ hr (by intro hc; cases hc)] at hmem ⊢
        have hh := mri_initModule env fuel n s X mX hlX hsome
        rw [hr] at hh
        exact hh hmem hnot
      | fuelOut =>
        rw [initAllNames_consFail env fuel n rest s s1 _ hr (by intro hc; cases hc)] at hmem ⊢
        have hh := mri_initModule env fuel n s X mX hlX hsome
        rw [hr] at hh
        exact hh hmem hnot

theorem trigger_noInitRun (env : Env) (event : String) (mn : Option String) (s : SysState)
    (X : String) (h : Event.initRun X ∉ s.trace) :
    Event.initRun X ∉ (triggerLifecycleHooks env event mn s).1.trace := by
  have hc := trigger_cnt env event mn s X
  rw [List.count_eq_zero.mpr h] at hc
  exact List.count_eq_zero.mp hc

theorem nif_initDeps_of (env : Env) (fuel : Nat) (X : String) (mX : ModuleDef)
    (hlX : lookupA X env.modules = some mX) (hni : mX.initFn = none)
    (hM : ∀ (root : String) (s : SysState), Event.initRun X ∉ s.trace →
      Event.initRun X ∉ (initModule env fuel root s).1.trace) :
    ∀ (c : String) (L : List String) (s : SysState), Event.initRun X ∉ s.trace →
      Event.initRun X ∉ (initDeps env fuel c L s).1.trace := by
  intro c L
  induction L with
  | nil => intro s h; exact h
  | cons d rest ih =>
    intro s h
    cases hl : lookupA d env.modules with
    | none => rw [initDeps_unreg env fuel c d rest s hl]; exact h
    | some md =>
      cases hr : initModule env fuel d s with
      | mk s1 r1 =>
        have h1 : Event.initRun X ∉ s1.trace := by
          have hh := hM d s h
          rw [hr] at hh
          exact hh
        cases r1 with
        | ok =>
          rw [initDeps_consOk env fuel c d rest s md hl s1 hr]
          exact ih s1 h1
        | err e =>
          rw [initDeps_consFail env fuel c d rest s md hl s1 _ hr (by intro hc; cases hc)]
          exact h1
        | fuelOut =>
          rw [initDeps_consFail env fuel c d rest s md hl s1 _ hr (by intro hc; cases hc)]
          exact h1

theorem nif_initModule (env : Env) (X : String) (mX : ModuleDef)
    (hlX : lookupA X env.modules = some mX) (hni : mX.initFn = none) :
    ∀ (fuel : Nat) (root : String) (s : SysState), Event.initRun X ∉ s.trace →
      Event.initRun X ∉ (initModule env fuel root s).1.trace := by
  intro fuel
  induction fuel with
  | zero => intro root s h; rw [initModule_zero]; exact h
  | succ f ih =>
    have ihD := nif_initDeps_of env f X mX hlX hni ih
    intro root s h
    by_cases hroot : root ∈ s.initialized
    · rw [initModule_mem env f root s hroot]; exact h
    · cases hl : lookupA root env.modules with
      | none => rw [initModule_notFound env f root s hroot hl]; exact h
      | some m =>
        cases hd : initDeps env f root (m.dependencies.getD []) s with
        | mk s1 r1 =>
          have h1 : Event.initRun X ∉ s1.trace := by
            have hh := ihD root (m.dependencies.getD []) s h
            rw [hd] at hh
            exact hh
          cases r1 with
          | ok =>
            obtain ⟨T, hTt, hTabout, _, h4, _, _, _, _, _, _, _⟩ := runBody_spec env root m s1
            cases hb : runBody env root m s1 with
            | mk s2 e? =>
              rw [hb] at hTt
              have hnT : Event.initRun X ∉ T := by
                by_cases hX : X = root
                · have hm : m = mX := by
                    rw [hX] at hlX
                    rw [hlX] at hl
                    exact (Option.some.inj hl).symm
                  have hcnt : T.count (Event.initRun root) = 0 := by
                    apply h4
                    rw [hm]
                    exact hni
                  rw [hX]
                  exact List.count_eq_zero.mp hcnt
                · apply notMem_of_all T _ (fun ev => aboutName ev = some root) hTabout
                  intro hcon
                  have hXr : X = root := by simpa [aboutName] using hcon
                  exact hX hXr
              have hres : Event.initRun X ∉ s2.trace := by
                rw [hTt]
                intro hmm
                rcases List.mem_append.mp hmm with hmm | hmm
                · exact h1 hmm
                · exact hnT hmm
              cases e? with
              | none => rw [initModule_bodyOk env f root s hroot m hl s1 hd s2 hb]; exact hres
              | some e => rw [initModule_bodyErr env f root s hroot m hl s1 hd s2 e hb]; exact hres
          | err e =>
            rw [initModule_depsFail env f root s hroot m hl s1 _ hd (by intro hc; cases hc)]
            exact h1
          | fuelOut =>
            rw [initModule_depsFail env f root s hroot m hl s1 _ hd (by intro hc; cases hc)]
            exact h1

theorem nif_initAllNames (env : Env) (fuel : Nat) (X : String) (mX : ModuleDef)
    (hlX : lookupA X env.modules = some mX) (hni : mX.initFn = none) :
    ∀ (L : List String) (s : SysState), Event.initRun X ∉ s.trace →
      Event.initRun X ∉ (initAllNames env fuel L s).1.trace := by
  intro L
  induction L with
  | nil => intro s h; exact h
  | cons n rest ih =>
    intro s h
    cases hr : initModule env fuel n s with
    | mk s1 r1 =>
      have h1 : Event.initRun X ∉ s1.trace := by
        have hh := nif_initModule env X mX hlX hni fuel n s h
        rw [hr] at hh
        exact hh
      cases r1 with
      | ok =>
        rw [initAllNames_consOk env fuel n rest s s1 hr]
        exact ih s1 h1
      | err e =>
        rw [initAllNames_consFail env fuel n rest s s1 _ hr (by intro hc; cases hc)]
        exact h1
      | fuelOut =>
        rw [initAllNames_consFail env fuel n rest s s1 _ hr (by intro hc; cases hc)]
        exact h1

/-- C6: calling `initializeModules` again without an intervening shutdown
clears the stale Initialized Set at the start of the call, so the run is
completely independent of the leftover set and builds a fresh context;
and in a successful run over a cycle-free registry (witnessed by a
topological ranking) every registered module ends up initialised with its
`initialize` callback invoked exactly once in that call — once when the
callback exists, zero times when it does not; nothing is cached across
calls. -/
theorem c6_fresh_run_exactly_once :
    (∀ (env : Env) (fuel : Nat) (prev : List String),
      initModules env fuel prev = initModules env fuel []) ∧
    (∀ (env : Env) (rank : String → Nat), Ranked env rank →
      ∀ (fuel : Nat) (prev : List String) (s' : SysState),
        initModules env fuel prev = (s', Res.ok) →
        ∀ X mX, lookupA X env.modules = some mX →
          X ∈ s'.initialized ∧
          s'.trace.count (Event.initRun X) = (if mX.initFn.isSome then 1 else 0)) := by
  constructor
  · intro env fuel prev
    rw [initModules_eq env fuel prev, initModules_eq env fuel []]
  · intro env rank hrk fuel prev s' hrun X mX hlX
    obtain ⟨s1, s2, hr1, hr2, hr3⟩ := initModules_ok_inv env fuel prev s' hrun
    obtain ⟨h1i, h1s, T1, h1t, h1e⟩ := trigger_state env "beforeAllInit" none
      { initialized := [], services := [], trace := [] }
    rw [hr1] at h1i h1t
    have h1i' : s1.initialized = [] := h1i
    have h1t' : s1.trace = [] ++ T1 := h1t
    have hXmem2 : X ∈ s2.initialized :=
      initAllNames_ok_marked env fuel (env.modules.map Prod.fst) s1 s2 hr2 X
        (lookupA_some_mem X mX env.modules hlX)
    obtain ⟨h3i, h3s, T3, h3t, h3e⟩ := trigger_state env "afterAllInit" none s2
    rw [hr3] at h3i h3t
    have h3i' : s'.initialized = s2.initialized := h3i
    have h3t' : s'.trace = s2.trace ++ T3 := h3t
    constructor
    · rw [h3i']
      exact hXmem2
    · have hle : s'.trace.count (Event.initRun X) ≤ 1 := by
        have hh := (amo_initModules env rank hrk fuel prev).1 X
        rw [hrun] at hh
        exact hh
      cases hsome : mX.initFn with
      | some b =>
        have hXnot1 : X ∉ s1.initialized := by
          rw [h1i']
          simp
        have hin2 : Event.initRun X ∈ s2.trace := by
          have hh := mri_initAllNames env fuel (env.modules.map Prod.fst) s1 X mX hlX
            (by rw [hsome]; rfl)
          rw [hr2] at hh
          exact hh hXmem2 hXnot1
        have hin' : Event.initRun X ∈ s'.trace := by
          rw [h3t']
          exact List.mem_append.mpr (Or.inl hin2)
        have hne0 : s'.trace.count (Event.initRun X) ≠ 0 := by
          intro h0
          exact (List.count_eq_zero.mp h0) hin'
        have hcond : (some b : Option Bool).isSome = true := rfl
        rw [if_pos hcond]
        omega
      | none =>
        have h0 : Event.initRun X ∉ s1.trace := by
          rw [h1t']
          simp only [List.nil_append]
          apply notMem_of_all T1 _ (fun ev => ∃ j, ev = Event.hookRun "beforeAllInit" none j) h1e
          rintro ⟨j, hj⟩; cases hj
        have h2' : Event.initRun X ∉ s2.trace := by
          have hh := nif_initAllNames env fuel X mX hlX hsome (env.modules.map Prod.fst) s1 h0
          rw [hr2] at hh
          exact hh
        have h3' : Event.initRun X ∉ s'.trace := by
          rw [h3t']
          intro hm
          rcases List.mem_append.mp hm with hm | hm
          · exact h2' hm
          · obtain ⟨j, hj⟩ := h3e _ hm
            cases hj
        have hcond : ¬ ((none : Option Bool).isSome = true) := by simp
        rw [if_neg hcond]
        exact List.count_eq_zero.mpr h3'

/-- C6 witness: a stale Initialized Set does not affect the concrete
logger/db run, and in that run the logger module's `initialize` ran
exactly once. -/
theorem c6_witness :
    initModules envLoggerDb 10 ["stale"] = initModules envLoggerDb 10 [] ∧
    ("logger" ∈
      ({ initialized := ["logger", "db"], services := [],
         trace := [Event.initRun "logger", Event.marked "logger", Event.initRun "db",
                   Event.marked "db"] } : SysState).initialized ∧
      ({ initialized := ["logger", "db"], services := [],
         trace := [Event.initRun "logger", Event.marked "logger", Event.initRun "db",
                   Event.marked "db"] } : SysState).trace.count (Event.initRun "logger") =
        (if (ModuleDef.initFn
              { id := some "logger", name := some "Logger", initFn := some true }).isSome
          then 1 else 0)) :=
  ⟨c6_fresh_run_exactly_once.1 envLoggerDb 10 ["stale"],
   c6_fresh_run_exactly_once.2 envLoggerDb (fun n => if n = "db" then 1 else 0)
     ranked_envLoggerDb 10 []
     { initialized := ["logger", "db"], services := [],
       trace := [Event.initRun "logger", Event.marked "logger", Event.initRun "db",
         Event.marked "db"] }
     (by decide) "logger"
     { id := some "logger", name := some "Logger", initFn := some true } (by decide)⟩

theorem prov_initDeps_of (env : Env) (fuel : Nat)
    (hM : ∀ (root : String) (s s' : SysState) (e : JsError),
      initModule env fuel root s = (s', .err e) →
      ∀ X, e.kind = ErrKind.initFailed X → e.moduleTag = some X) :
    ∀ (c : String) (L : List String) (s s' : SysState) (e : JsError),
      initDeps env fuel c L s = (s', .err e) →
      ∀ X, e.kind = ErrKind.initFailed X → e.moduleTag = some X := by
  intro c L
  induction L with
  | nil =>
    intro s s' e h X _
    rw [initDeps_nil] at h
    injection h with h1 h2
    cases h2
  | cons d rest ih =>
    intro s s' e h X hk
    cases hl : lookupA d env.modules with
    | none =>
      rw [initDeps_unreg env fuel c d rest s hl] at h
      injection h with h1 h2
      injection h2 with h3
      rw [← h3] at hk
      exact ErrKind.noConfusion hk
    | some md =>
      cases hr : initModule env fuel d s with
      | mk s1 r1 =>
        cases r1 with
        | ok =>
          rw [initDeps_consOk env fuel c d rest s md hl s1 hr] at h
          exact ih s1 s' e h X hk
        | err e1 =>
          rw [initDeps_consFail env fuel c d rest s md hl s1 _ hr (by intro hc; cases hc)] at h
          injection h with h1 h2
          injection h2 with h3
          have hk1 : e1.kind = ErrKind.initFailed X := by rw [h3]; exact hk
          have := hM d s s1 e1 hr X hk1
          rw [← h3]
          exact this
        | fuelOut =>
          rw [initDeps_consFail env fuel c d rest s md hl s1 _ hr (by intro hc; cases hc)] at h
          injection h with h1 h2
          cases h2

theorem prov_initModule (env : Env) :
    ∀ (fuel : Nat) (root : String) (s s' : SysState) (e : JsError),
      initModule env fuel root s = (s', .err e) →
      ∀ X, e.kind = ErrKind.initFailed X → e.moduleTag = some X := by
  intro fuel
  induction fuel with
  | zero =>
    intro root s s' e h X _
    rw [initModule_zero] at h
    injection h with h1 h2
    cases h2
  | succ f ih =>
    have ihD := prov_initDeps_of env f ih
    intro root s s' e h X hk
    by_cases hmem : root ∈ s.initialized
    · rw [initModule_mem env f root s hmem] at h
      injection h with h1 h2
      cases h2
    · cases hl : lookupA root env.modules with
      | none =>
        rw [initModule_notFound env f root s hmem hl] at h
        injection h with h1 h2
        injection h2 with h3
        rw [← h3] at hk
        exact ErrKind.noConfusion hk
      | some m =>
        cases hd : initDeps env f root (m.dependencies.getD []) s with
        | mk s1 r1 =>
          cases r1 with
          | ok =>
            cases hb : runBody env root m s1 with
            | mk s2 e? =>
              cases e? with
              | none =>
                rw [initModule_bodyOk env f root s hmem m hl s1 hd s2 hb] at h
                injection h with h1 h2
                cases h2
              | some e0 =>
                rw [initModule_bodyErr env f root s hmem m hl s1 hd s2 e0 hb] at h
                injection h with h1 h2
                injection h2 with h3
                obtain ⟨_, _, _, _, _, _, _, _, _, _, herr, _⟩ := runBody_spec env root m s1
                rw [hb] at herr
                obtain ⟨htag0, hkinds⟩ := herr e0 rfl
                have hek : e.kind = e0.kind := by rw [← h3]
                rw [← h3]
                rw [hek] at hk
                rcases hkinds with hh | hh | hh | hh
                · rw [hh] at hk; exact ErrKind.noConfusion hk
                · rw [hh] at hk
                  have hXr : root = X := by injection hk
                  rw [hXr]
                · rw [hh] at hk; exact ErrKind.noConfusion hk
                · rw [hh] at hk; exact ErrKind.noConfusion hk
          | err e1 =>
            rw [initModule_depsFail env f root s hmem m hl s1 _ hd (by intro hc; cases hc)] at h
            injection h with h1 h2
            injection h2 with h3
            have hk1 : e1.kind = ErrKind.initFailed X := by rw [h3]; exact hk
            have := ihD root (m.dependencies.getD []) s s1 e1 hd X hk1
            rw [← h3]
            exact this
          | fuelOut =>
            rw [initModule_depsFail env f root s hmem m hl s1 _ hd (by intro hc; cases hc)] at h
            injection h with h1 h2
            cases h2

theorem prov_initAllNames (env : Env) (fuel : Nat) :
    ∀ (L : List String) (s s' : SysState) (e : JsError),
      initAllNames env fuel L s = (s', .err e) →
      ∀ X, e.kind = ErrKind.initFailed X → e.moduleTag = some X := by
  intro L
  induction L with
  | nil =>
    intro s s' e h X _
    rw [initAllNames_nil] at h
    injection h with h1 h2
    cases h2
  | cons n rest ih =>
    intro s s' e h X hk
    cases hr : initModule env fuel n s with
    | mk s1 r1 =>
      cases r1 with
      | ok =>
        rw [initAllNames_consOk env fuel n rest s s1 hr] at h
        exact ih s1 s' e h X hk
      | err e1 =>
        rw [initAllNames_consFail env fuel n rest s s1 _ hr (by intro hc; cases hc)] at h
        injection h with h1 h2
        injection h2 with h3
        have hk1 : e1.kind = ErrKind.initFailed X := by rw [h3]; exact hk
        have := prov_initModule env fuel n s s1 e1 hr X hk1
        rw [← h3]
        exact this
      | fuelOut =>
        rw [initAllNames_consFail env fuel n rest s s1 _ hr (by intro hc; cases hc)] at h
        injection h with h1 h2
        cases h2

theorem initAllNames_err_inv (env : Env) (fuel : Nat) :
    ∀ (L : List String) (s s' : SysState) (e : JsError),
      initAllNames env fuel L s = (s', .err e) →
      ∃ done K rest s_mid, L = done ++ K :: rest ∧
        initAllNames env fuel done s = (s_mid, Res.ok) ∧
        initModule env fuel K s_mid = (s', .err e) := by
  intro L
  induction L with
  | nil =>
    intro s s' e h
    rw [initAllNames_nil] at h
    injection h with h1 h2
    cases h2
  | cons n rest ih =>
    intro s s' e h
    cases hr : initModule env fuel n s with
    | mk s1 r1 =>
      cases r1 with
      | ok =>
        rw [initAllNames_consOk env fuel n rest s s1 hr] at h
        obtain ⟨done', K, rest', s_mid, hsplit, hdone, hK⟩ := ih s1 s' e h
        refine ⟨n :: done', K, rest', s_mid, by rw [hsplit]; rfl, ?_, hK⟩
        rw [initAllNames_consOk env fuel n done' s s1 hr]
        exact hdone
      | err e1 =>
        rw [initAllNames_consFail env fuel n rest s s1 _ hr (by intro hc; cases hc)] at h
        injection h with h1 h2
        injection h2 with h3
        refine ⟨[], n, rest, s, rfl, rfl, ?_⟩
        rw [hr, h1, h3]
      | fuelOut =>
        rw [initAllNames_consFail env fuel n rest s s1 _ hr (by intro hc; cases hc)] at h
        injection h with h1 h2
        cases h2

theorem initModules_err_inv (env : Env) (fuel : Nat) (prev : List String) (s' : SysState)
    (e : JsError) (hrun : initModules env fuel prev = (s', .err e)) :
    (triggerLifecycleHooks env "beforeAllInit" none
        { initialized := [], services := [], trace := [] } = (s', some e)) ∨
    (∃ s1, triggerLifecycleHooks env "beforeAllInit" none
        { initialized := [], services := [], trace := [] } = (s1, none) ∧
      initAllNames env fuel (env.modules.map Prod.fst) s1 = (s', .err e)) ∨
    (∃ s1 s2, triggerLifecycleHooks env "beforeAllInit" none
        { initialized := [], services := [], trace := [] } = (s1, none) ∧
      initAllNames env fuel (env.modules.map Prod.fst) s1 = (s2, Res.ok) ∧
      triggerLifecycleHooks env "afterAllInit" none s2 = (s', some e)) := by
  cases hr1 : (triggerLifecycleHooks env "beforeAllInit" none
      { initialized := [], services := [], trace := [] }) with
  | mk s1 r1 =>
    cases r1 with
    | some e1 =>
      rw [initModules_hookFail env fuel prev s1 e1 hr1] at hrun
      injection hrun with h1 h2
      injection h2 with h3
      rw [h1, h3]
      exact Or.inl rfl
    | none =>
      cases hr2 : initAllNames env fuel (env.modules.map Prod.fst) s1 with
      | mk s2 r2 =>
        cases r2 with
        | ok =>
          cases hr3 : (triggerLifecycleHooks env "afterAllInit" none s2) with
          | mk s3 r3 =>
            cases r3 with
            | some e3 =>
              rw [initModules_afterFail env fuel prev s1 s2 s3 e3 hr1 hr2 hr3] at hrun
              injection hrun with h1 h2
              injection h2 with h3
              refine Or.inr (Or.inr ⟨s1, s2, rfl, hr2, ?_⟩)
              rw [hr3, h1, h3]
            | none =>
              rw [initModules_allOk env fuel prev s1 s2 s3 hr1 hr2 hr3] at hrun
              injection hrun with h1 h2
              cases h2
        | err e2 =>
          rw [initModules_loopFail env fuel prev s1 s2 _ hr1 hr2 (by intro hc; cases hc)] at hrun
          injection hrun with h1 h2
          injection h2 with h3
          refine Or.inr (Or.inl ⟨s1, rfl, ?_⟩)
          rw [hr2, h1, h3]
        | fuelOut =>
          rw [initModules_loopFail env fuel prev s1 s2 _ hr1 hr2 (by intro hc; cases hc)] at hrun
          injection hrun with h1 h2
          cases h2

/-- C4: when a module's `initialize` callback throws during
`initializeModules`, the resulting error carries the failing module's
name in its `module` property and rejects the whole call; the global loop
stopped at the failing module (a decomposition of the registration order
into successfully processed modules, the failing module, and an untouched
remainder), and the final Initialized Set still contains exactly the
modules whose `marked` event was recorded before the failure — nothing is
rolled back. -/
theorem c4_init_failure_tagged_and_aborts
    (env : Env) (fuel : Nat) (prev : List String) (s' : SysState) (e : JsError) (X : String)
    (hrun : initModules env fuel prev = (s', .err e))
    (hkind : e.kind = ErrKind.initFailed X) :
    e.moduleTag = some X ∧
    (∀ n, n ∈ s'.initialized ↔ Event.marked n ∈ s'.trace) ∧
    (∃ s1 done K rest s_mid,
      triggerLifecycleHooks env "beforeAllInit" none
        { initialized := [], services := [], trace := [] } = (s1, none) ∧
      env.modules.map Prod.fst = done ++ K :: rest ∧
      initAllNames env fuel done s1 = (s_mid, Res.ok) ∧
      initModule env fuel K s_mid = (s', .err e)) := by
  have hloop : ∃ s1, triggerLifecycleHooks env "beforeAllInit" none
      { initialized := [], services := [], trace := [] } = (s1, none) ∧
      initAllNames env fuel (env.modules.map Prod.fst) s1 = (s', .err e) := by
    rcases initModules_err_inv env fuel prev s' e hrun with h | ⟨s1, h1, h2⟩ | ⟨s1, s2, h1, h2, h3⟩
    · have hsh := trigger_err_shape env "beforeAllInit" none
        { initialized := [], services := [], trace := [] } e (by rw [h])
      rw [hsh] at hkind
      exact ErrKind.noConfusion hkind
    · exact ⟨s1, h1, h2⟩
    · have hsh := trigger_err_shape env "afterAllInit" none s2 e (by rw [h3])
      rw [hsh] at hkind
      exact ErrKind.noConfusion hkind
  obtain ⟨s1, h1, h2⟩ := hloop
  refine ⟨?_, ?_, ?_⟩
  · exact prov_initAllNames env fuel (env.modules.map Prod.fst) s1 s' e h2 X hkind
  · have hg := (good_initModules env fuel prev).1
    rw [hrun] at hg
    exact hg
  · obtain ⟨done, K, rest, s_mid, hsplit, hdone, hK⟩ :=
      initAllNames_err_inv env fuel (env.modules.map Prod.fst) s1 s' e h2
    exact ⟨s1, done, K, rest, s_mid, h1, hsplit, hdone, hK⟩

/-- C4 witness: in the concrete run where the `bad` module's `initialize`
throws, the rejection is tagged with `"bad"`, the already-initialised `a`
module remains marked, and the loop stopped at `bad`. -/
theorem c4_witness :
    JsError.moduleTag { kind := ErrKind.initFailed "bad", moduleTag := some "bad" } =
      some "bad" ∧
    (∀ n, n ∈
      ({ initialized := ["a"], services := [],
         trace := [Event.initRun "a", Event.marked "a", Event.initRun "bad"] } :
        SysState).initialized ↔
      Event.marked n ∈
      ({ initialized := ["a"], services := [],
         trace := [Event.initRun "a", Event.marked "a", Event.initRun "bad"] } :
        SysState).trace) ∧
    (∃ s1 done K rest s_mid,
      triggerLifecycleHooks envInitFail "beforeAllInit" none
        { initialized := [], services := [], trace := [] } = (s1, none) ∧
      envInitFail.modules.map Prod.fst = done ++ K :: rest ∧
      initAllNames envInitFail 10 done s1 = (s_mid, Res.ok) ∧
      initModule envInitFail 10 K s_mid =
        ({ initialized := ["a"], services := [],
           trace := [Event.initRun "a", Event.marked "a", Event.initRun "bad"] },
         .err { kind := ErrKind.initFailed "bad", moduleTag := some "bad" })) :=
  c4_init_failure_tagged_and_aborts envInitFail 10 []
    { initialized := ["a"], services := [],
      trace := [Event.initRun "a", Event.marked "a", Event.initRun "bad"] }
    { kind := ErrKind.initFailed "bad", moduleTag := some "bad" }
    "bad" (by decide) rfl

/-- A dependency list containing an unregistered name can never be
processed successfully: the loop reaches the unregistered name (or fails
earlier) and throws. -/
theorem initDeps_with_unreg_not_ok (env : Env) (fuel : Nat) (c : String) :
    ∀ (L : List String) (s s' : SysState),
      (∃ g ∈ L, lookupA g env.modules = none) →
      initDeps env fuel c L s ≠ (s', Res.ok) := by
  intro L
  induction L with
  | nil =>
    intro s s' hg
    obtain ⟨g, hgm, _⟩ := hg
    cases hgm
  | cons d rest ih =>
    intro s s' hg h
    obtain ⟨g, hgm, hgun⟩ := hg
    cases hl : lookupA d env.modules with
    | none =>
      rw [initDeps_unreg env fuel c d rest s hl] at h
      injection h with h1 h2
      cases h2
    | some md =>
      have hgrest : g ∈ rest := by
        rcases List.mem_cons.mp hgm with hgd | hgr
        · rw [hgd] at hgun
          rw [hgun] at hl
          cases hl
        · exact hgr
      cases hr : initModule env fuel d s with
      | mk s1 r1 =>
        cases r1 with
        | ok =>
          rw [initDeps_consOk env fuel c d rest s md hl s1 hr] at h
          exact ih s1 s' ⟨g, hgrest, hgun⟩ h
        | err e =>
          rw [initDeps_consFail env fuel c d rest s md hl s1 _ hr
            (by intro hc; cases hc)] at h
          injection h with h1 h2
          cases h2
        | fuelOut =>
          rw [initDeps_consFail env fuel c d rest s md hl s1 _ hr
            (by intro hc; cases hc)] at h
          injection h with h1 h2
          cases h2

/-- When the dependencies before the unregistered name all initialize
successfully, the dependency loop stops exactly at the unregistered name
with an `UnresolvedDependency` error carrying no module tag (the loop
runs outside the `try` block that tags errors). -/
theorem initDeps_append_hit (env : Env) (fuel : Nat) (c ghost : String)
    (hghost : lookupA ghost env.modules = none) :
    ∀ (pre post : List String) (s sC : SysState),
      initDeps env fuel c pre s = (sC, Res.ok) →
      initDeps env fuel c (pre ++ ghost :: post) s =
        (sC, .err { kind := .unresolvedDep ghost c, moduleTag := none }) := by
  intro pre
  induction pre with
  | nil =>
    intro post s sC hpre
    rw [initDeps_nil] at hpre
    injection hpre with h1 h2
    rw [List.nil_append, ← h1]
    exact initDeps_unreg env fuel c ghost post s hghost
  | cons d pre' ih =>
    intro post s sC hpre
    cases hl : lookupA d env.modules with
    | none =>
      rw [initDeps_unreg env fuel c d pre' s hl] at hpre
      injection hpre with h1 h2
      cases h2
    | some md =>
      cases hr : initModule env fuel d s with
      | mk s1 r1 =>
        cases r1 with
        | ok =>
          rw [initDeps_consOk env fuel c d pre' s md hl s1 hr] at hpre
          rw [List.cons_append,
            initDeps_consOk env fuel c d (pre' ++ ghost :: post) s md hl s1 hr]
          exact ih post s1 sC hpre
        | err e =>
          rw [initDeps_consFail env fuel c d pre' s md hl s1 _ hr
            (by intro hc; cases hc)] at hpre
          injection hpre with h1 h2
          cases h2
        | fuelOut =>
          rw [initDeps_consFail env fuel c d pre' s md hl s1 _ hr
            (by intro hc; cases hc)] at hpre
          injection hpre with h1 h2
          cases h2

/-- Dependency-loop layer of the no-side-effects argument: if no event so
far concerns module `C` and `C` is not yet marked, the same holds after
processing any dependency list, provided the per-module property holds at
the current fuel. -/
theorem noevc_initDeps_of (env : Env) (C : String) (fuel : Nat)
    (hM : ∀ name s, (∀ ev ∈ s.trace, aboutName ev ≠ some C) → C ∉ s.initialized →
      (∀ ev ∈ (initModule env fuel name s).1.trace, aboutName ev ≠ some C) ∧
      C ∉ (initModule env fuel name s).1.initialized) :
    ∀ (curName : String) (L : List String) (s : SysState),
      (∀ ev ∈ s.trace, aboutName ev ≠ some C) → C ∉ s.initialized →
      (∀ ev ∈ (initDeps env fuel curName L s).1.trace, aboutName ev ≠ some C) ∧
      C ∉ (initDeps env fuel curName L s).1.initialized := by
  intro curName L
  induction L with
  | nil =>
    intro s htr hni
    exact ⟨htr, hni⟩
  | cons d rest ih =>
    intro s htr hni
    cases hl : lookupA d env.modules with
    | none =>
      rw [initDeps_unreg env fuel curName d rest s hl]
      exact ⟨htr, hni⟩
    | some md =>
      have hd := hM d s htr hni
      cases hr : initModule env fuel d s with
      | mk s1 r1 =>
        rw [hr] at hd
        cases r1 with
        | ok =>
          rw [initDeps_consOk env fuel curName d rest s md hl s1 hr]
          exact ih s1 hd.1 hd.2
        | err e =>
          rw [initDeps_consFail env fuel curName d rest s md hl s1 _ hr
            (by intro hc; cases hc)]
          exact hd
        | fuelOut =>
          rw [initDeps_consFail env fuel curName d rest s md hl s1 _ hr
            (by intro hc; cases hc)]
          exact hd

/-- No side effects ever occur for a module whose dependency list contains
an unregistered name: initializing any module (including `C` itself, or a
module that pulls `C` in transitively) adds no event about `C` to the
trace and never marks `C` initialized, because `C`'s body is only reached
after its dependency loop succeeds — which it cannot. -/
theorem noevc_initModule (env : Env) (C : String) (mC : ModuleDef)
    (hC : lookupA C env.modules = some mC)
    (hg : ∃ g ∈ mC.dependencies.getD [], lookupA g env.modules = none) :
    ∀ (fuel : Nat) (name : String) (s : SysState),
      (∀ ev ∈ s.trace, aboutName ev ≠ some C) → C ∉ s.initialized →
      (∀ ev ∈ (initModule env fuel name s).1.trace, aboutName ev ≠ some C) ∧
      C ∉ (initModule env fuel name s).1.initialized := by
  intro fuel
  induction fuel with
  | zero =>
    intro name s htr hni
    rw [initModule_zero]
    exact ⟨htr, hni⟩
  | succ f ih =>
    have ihD := noevc_initDeps_of env C f ih
    intro name s htr hni
    by_cases hmem : name ∈ s.initialized
    · rw [initModule_mem env f name s hmem]
      exact ⟨htr, hni⟩
    · cases hl : lookupA name env.modules with
      | none =>
        rw [initModule_notFound env f name s hmem hl]
        exact ⟨htr, hni⟩
      | some m =>
        have hD := ihD name (m.dependencies.getD []) s htr hni
        cases hd : initDeps env f name (m.dependencies.getD []) s with
        | mk s1 r1 =>
          rw [hd] at hD
          cases r1 with
          | ok =>
            have hD1 : ∀ ev ∈ s1.trace, aboutName ev ≠ some C := hD.1
            have hD2 : C ∉ s1.initialized := hD.2
            have hne : name ≠ C := by
              intro hEq
              rw [hEq, hC] at hl
              injection hl with hm
              rw [hEq, ← hm] at hd
              exact initDeps_with_unreg_not_ok env f C
                (mC.dependencies.getD []) s s1 hg hd
            cases hb : runBody env name m s1 with
            | mk s2 oe =>
              obtain ⟨T, hT0, hAb, _, _, hor0, _, _, _, _, _, _⟩ :=
                runBody_spec env name m s1
              rw [hb] at hT0 hor0
              have hT : s2.trace = s1.trace ++ T := hT0
              have hor : s2.initialized = s1.initialized ∨
                  (s2.initialized = s1.initialized ++ [name] ∧ name ∉ s1.initialized ∧
                    Event.marked name ∈ T) := hor0
              have hev2 : ∀ ev ∈ s2.trace, aboutName ev ≠ some C := by
                intro ev hev
                rw [hT] at hev
                rcases List.mem_append.mp hev with h | h
                · exact hD1 ev h
                · rw [hAb ev h]
                  intro hcc
                  injection hcc with hcc2
                  exact hne hcc2
              have hni2 : C ∉ s2.initialized := by
                rcases hor with hsame | ⟨happ, _, _⟩
                · rw [hsame]
                  exact hD2
                · rw [happ]
                  intro hcm
                  rcases List.mem_append.mp hcm with h | h
                  · exact hD2 h
                  · exact hne (List.mem_singleton.mp h).symm
              cases oe with
              | none =>
                rw [initModule_bodyOk env f name s hmem m hl s1 hd s2 hb]
                exact ⟨hev2, hni2⟩
              | some e =>
                rw [initModule_bodyErr env f name s hmem m hl s1 hd s2 e hb]
                exact ⟨hev2, hni2⟩
          | err e =>
            rw [initModule_depsFail env f name s hmem m hl s1 _ hd
              (by intro hc; cases hc)]
            exact hD
          | fuelOut =>
            rw [initModule_depsFail env f name s hmem m hl s1 _ hd
              (by intro hc; cases hc)]
            exact hD

/-- Global-loop layer of the no-side-effects argument for a module whose
dependency list contains an unregistered name. -/
theorem noevc_initAllNames (env : Env) (C : String) (mC : ModuleDef)
    (hC : lookupA C env.modules = some mC)
    (hg : ∃ g ∈ mC.dependencies.getD [], lookupA g env.modules = none) (fuel : Nat) :
    ∀ (L : List String) (s : SysState),
      (∀ ev ∈ s.trace, aboutName ev ≠ some C) → C ∉ s.initialized →
      (∀ ev ∈ (initAllNames env fuel L s).1.trace, aboutName ev ≠ some C) ∧
      C ∉ (initAllNames env fuel L s).1.initialized := by
  intro L
  induction L with
  | nil =>
    intro s htr hni
    exact ⟨htr, hni⟩
  | cons n rest ih =>
    intro s htr hni
    have hm := noevc_initModule env C mC hC hg fuel n s htr hni
    cases hr : initModule env fuel n s with
    | mk s1 r1 =>
      rw [hr] at hm
      cases r1 with
      | ok =>
        rw [initAllNames_consOk env fuel n rest s s1 hr]
        exact ih s1 hm.1 hm.2
      | err e =>
        rw [initAllNames_consFail env fuel n rest s s1 _ hr (by intro hc; cases hc)]
        exact hm
      | fuelOut =>
        rw [initAllNames_consFail env fuel n rest s s1 _ hr (by intro hc; cases hc)]
        exact hm

/-- Processing a concatenation of name lists that succeeds on the first
part continues with the second part from the reached state. -/
theorem initAllNames_append (env : Env) (fuel : Nat) :
    ∀ (L1 L2 : List String) (s sB : SysState),
      initAllNames env fuel L1 s = (sB, Res.ok) →
      initAllNames env fuel (L1 ++ L2) s = initAllNames env fuel L2 sB := by
  intro L1
  induction L1 with
  | nil =>
    intro L2 s sB h
    rw [initAllNames_nil] at h
    injection h with h1 h2
    rw [List.nil_append, h1]
  | cons n rest ih =>
    intro L2 s sB h
    cases hr : initModule env fuel n s with
    | mk s1 r1 =>
      cases r1 with
      | ok =>
        rw [initAllNames_consOk env fuel n rest s s1 hr] at h
        rw [List.cons_append, initAllNames_consOk env fuel n (rest ++ L2) s s1 hr]
        exact ih L2 s1 sB h
      | err e =>
        rw [initAllNames_consFail env fuel n rest s s1 _ hr (by intro hc; cases hc)] at h
        injection h with h1 h2
        cases h2
      | fuelOut =>
        rw [initAllNames_consFail env fuel n rest s s1 _ hr (by intro hc; cases hc)] at h
        injection h with h1 h2
        cases h2

/-- C3 counterexample: in `envGhost` the registration order is
`b, c, d` and `c` declares the unregistered dependency `"ghost"`, yet the
run — which does reject with an `UnresolvedDependency` error — leaves
`d` in the Initialized Set: `d` sits AFTER `c` in registration order but
was pulled in earlier as a dependency of `b`, refuting the claim that no
module after C in registration order reaches Initialized state. -/
theorem c3_counterexample :
    initModules envGhost 10 [] =
      ({ initialized := ["d", "b"], services := [],
         trace := [Event.initRun "d", Event.marked "d",
                   Event.initRun "b", Event.marked "b"] },
       .err { kind := ErrKind.unresolvedDep "ghost" "c", moduleTag := none }) ∧
    envGhost.modules.map Prod.fst = ["b", "c", "d"] ∧
    "d" ∈ ["d", "b"] := by
  refine ⟨by decide, rfl, by decide⟩

/-- C3 (amended): when the global loop reaches a module C whose
dependency list contains an unregistered name (its earlier dependencies
having initialized successfully), the whole `initializeModules` call
rejects with an `UnresolvedDependency` error naming the missing name and
C — untagged with any module, since the dependency check runs outside the
`try` block; C itself has no side effects (no event about C is ever in
the trace: no per-module hook, no `initialize`, no route mounting, no
service publication, no marking) and C publishes no services; every
module initialized before the failure remains initialized.  (Unlike the
original claim, a module AFTER C in registration order may already be
initialized — as a dependency pulled in by an earlier module.) -/
theorem c3_amended_unresolved_dependency
    (env : Env) (f : Nat) (prev : List String)
    (C ghost : String) (mC : ModuleDef)
    (done rest pre post : List String)
    (s1 sB sC : SysState)
    (hC : lookupA C env.modules = some mC)
    (hdeps : mC.dependencies.getD [] = pre ++ ghost :: post)
    (hghost : lookupA ghost env.modules = none)
    (hnames : env.modules.map Prod.fst = done ++ C :: rest)
    (h1 : triggerLifecycleHooks env "beforeAllInit" none
      { initialized := [], services := [], trace := [] } = (s1, none))
    (hdone : initAllNames env (f + 1) done s1 = (sB, Res.ok))
    (hpre : initDeps env f C pre sB = (sC, Res.ok)) :
    initModules env (f + 1) prev =
      (sC, .err { kind := ErrKind.unresolvedDep ghost C, moduleTag := none }) ∧
    C ∉ sC.initialized ∧
    (∀ ev ∈ sC.trace, aboutName ev ≠ some C) ∧
    lookupA C sC.services = none ∧
    (∀ n ∈ sB.initialized, n ∈ sC.initialized) := by
  have hgex : ∃ g ∈ mC.dependencies.getD [], lookupA g env.modules = none := by
    rw [hdeps]
    exact ⟨ghost, List.mem_append.mpr (Or.inr (List.mem_cons_self ghost post)), hghost⟩
  have hf : (triggerLifecycleHooks env "beforeAllInit" none
      { initialized := [], services := [], trace := [] }).1 = s1 := by
    rw [h1]
  have hs1i : s1.initialized = [] := by
    have h := (trigger_state env "beforeAllInit" none
      { initialized := [], services := [], trace := [] }).1
    rw [hf] at h
    exact h
  have hs1s : s1.services = [] := by
    have h := (trigger_state env "beforeAllInit" none
      { initialized := [], services := [], trace := [] }).2.1
    rw [hf] at h
    exact h
  have hs1t : ∀ ev ∈ s1.trace, aboutName ev ≠ some C := by
    obtain ⟨T1, hT1, hall⟩ := (trigger_state env "beforeAllInit" none
      { initialized := [], services := [], trace := [] }).2.2
    rw [hf] at hT1
    intro ev hev
    rw [hT1] at hev
    rcases List.mem_append.mp hev with h | h
    · exact absurd h (List.not_mem_nil ev)
    · obtain ⟨j, hj⟩ := hall ev h
      rw [hj]
      intro hcc
      exact Option.noConfusion hcc
  have hs1ni : C ∉ s1.initialized := by
    rw [hs1i]
    exact List.not_mem_nil C
  have hBrun := noevc_initAllNames env C mC hC hgex (f + 1) done s1 hs1t hs1ni
  rw [hdone] at hBrun
  have hBt : ∀ ev ∈ sB.trace, aboutName ev ≠ some C := hBrun.1
  have hBi : C ∉ sB.initialized := hBrun.2
  have hCrun := noevc_initDeps_of env C f
    (noevc_initModule env C mC hC hgex f) C pre sB hBt hBi
  rw [hpre] at hCrun
  have hCt : ∀ ev ∈ sC.trace, aboutName ev ≠ some C := hCrun.1
  have hCi : C ∉ sC.initialized := hCrun.2
  have hfull : initDeps env f C (mC.dependencies.getD []) sB =
      (sC, .err { kind := .unresolvedDep ghost C, moduleTag := none }) := by
    rw [hdeps]
    exact initDeps_append_hit env f C ghost hghost pre post sB sC hpre
  have hmodC : initModule env (f + 1) C sB =
      (sC, .err { kind := .unresolvedDep ghost C, moduleTag := none }) :=
    initModule_depsFail env f C sB hBi mC hC sC _ hfull (by intro hc; cases hc)
  have hloopC : initAllNames env (f + 1) (C :: rest) sB =
      (sC, .err { kind := .unresolvedDep ghost C, moduleTag := none }) :=
    initAllNames_consFail env (f + 1) C rest sB sC _ hmodC (by intro hc; cases hc)
  have hloopFull : initAllNames env (f + 1) (env.modules.map Prod.fst) s1 =
      (sC, .err { kind := .unresolvedDep ghost C, moduleTag := none }) := by
    rw [hnames, initAllNames_append env (f + 1) done (C :: rest) s1 sB hdone, hloopC]
  have hrun : initModules env (f + 1) prev =
      (sC, .err { kind := ErrKind.unresolvedDep ghost C, moduleTag := none }) :=
    initModules_loopFail env (f + 1) prev s1 sC _ h1 hloopFull (by intro hc; cases hc)
  have hsvcB : lookupA C sB.services = none := by
    have h := stepOK_initAllNames env (f + 1) done s1
    rw [hdone] at h
    obtain ⟨δ, T, hi, ht, _, hsvc, _⟩ := h
    have ht' : sB.trace = s1.trace ++ T := ht
    have hsvc' : lookupA C sB.services = lookupA C s1.services ∨
        Event.svcPublished C ∈ T := hsvc C
    rcases hsvc' with h | h
    · rw [h, hs1s]
      rfl
    · have hmem : Event.svcPublished C ∈ sB.trace := by
        rw [ht']
        exact List.mem_append.mpr (Or.inr h)
      exact absurd rfl (hBt _ hmem)
  have hsvcC : lookupA C sC.services = none := by
    have h := stepOK_initDeps env f C pre sB
    rw [hpre] at h
    obtain ⟨δ, T, hi, ht, _, hsvc, _⟩ := h
    have ht' : sC.trace = sB.trace ++ T := ht
    have hsvc' : lookupA C sC.services = lookupA C sB.services ∨
        Event.svcPublished C ∈ T := hsvc C
    rcases hsvc' with h | h
    · rw [h, hsvcB]
    · have hmem : Event.svcPublished C ∈ sC.trace := by
        rw [ht']
        exact List.mem_append.mpr (Or.inr h)
      exact absurd rfl (hCt _ hmem)
  have hmono : ∀ n ∈ sB.initialized, n ∈ sC.initialized := by
    have h := stepOK_initDeps env f C pre sB
    rw [hpre] at h
    exact stepOK_mono env sB sC h
  exact ⟨hrun, hCi, hCt, hsvcC, hmono⟩

/-- C3 witness: the amended theorem applied to `envGhost`, where the
loop processes `b` (pulling in its dependency `d`) and then stops at `c`
whose dependency `"ghost"` is unregistered: the run rejects with the
untagged `UnresolvedDependency` error, `c` is not initialized, no event
concerns `c`, `c` published no services, and `d` and `b` remain
initialized. -/
theorem c3_amended_witness :
    initModules envGhost 10 [] =
      ({ initialized := ["d", "b"], services := [],
         trace := [Event.initRun "d", Event.marked "d",
                   Event.initRun "b", Event.marked "b"] },
       .err { kind := ErrKind.unresolvedDep "ghost" "c", moduleTag := none }) ∧
    "c" ∉ ({ initialized := ["d", "b"], services := [],
             trace := [Event.initRun "d", Event.marked "d",
                       Event.initRun "b", Event.marked "b"] } : SysState).initialized ∧
    (∀ ev ∈ ({ initialized := ["d", "b"], services := [],
               trace := [Event.initRun "d", Event.marked "d",
                         Event.initRun "b", Event.marked "b"] } : SysState).trace,
      aboutName ev ≠ some "c") ∧
    lookupA "c" ({ initialized := ["d", "b"], services := [],
                   trace := [Event.initRun "d", Event.marked "d",
                             Event.initRun "b", Event.marked "b"] } : SysState).services =
      none ∧
    (∀ n ∈ ({ initialized := ["d", "b"], services := [],
              trace := [Event.initRun "d", Event.marked "d",
                        Event.initRun "b", Event.marked "b"] } : SysState).initialized,
      n ∈ ({ initialized := ["d", "b"], services := [],
             trace := [Event.initRun "d", Event.marked "d",
                       Event.initRun "b", Event.marked "b"] } : SysState).initialized) :=
  c3_amended_unresolved_dependency envGhost 9 [] "c" "ghost"
    { id := some "c", name := some "C", dependencies := some ["ghost"],
      initFn := some true }
    ["b"] ["d"] [] []
    { initialized := [], services := [], trace := [] }
    { initialized := ["d", "b"], services := [],
      trace := [Event.initRun "d", Event.marked "d",
                Event.initRun "b", Event.marked "b"] }
    { initialized := ["d", "b"], services := [],
      trace := [Event.initRun "d", Event.marked "d",
                Event.initRun "b", Event.marked "b"] }
    rfl rfl rfl rfl (by decide) (by decide) rfl

theorem shutdownLoop_nil (env : Env) (s : SysState) :
    shutdownLoop env [] s = (s, none) := rfl

theorem shutdownLoop_unreg (env : Env) (n : String) (rest : List String) (s : SysState)
    (hm : lookupA n env.modules = none) :
    shutdownLoop env (n :: rest) s = (s, some { kind := .shutdownTypeError n }) := by
  simp only [shutdownLoop, hm]

theorem shutdownLoop_noCb (env : Env) (n : String) (rest : List String) (s : SysState)
    (m : ModuleDef) (hm : lookupA n env.modules = some m) (hs : m.shutdown = none) :
    shutdownLoop env (n :: rest) s = shutdownLoop env rest s := by
  simp only [shutdownLoop, hm, hs]

theorem shutdownLoop_ok (env : Env) (n : String) (rest : List String) (s : SysState)
    (m : ModuleDef) (hm : lookupA n env.modules = some m) (hs : m.shutdown = some true) :
    shutdownLoop env (n :: rest) s =
      shutdownLoop env rest { s with trace := s.trace ++ [Event.shutdownRun n] } := by
  simp only [shutdownLoop, hm, hs, if_true]

theorem shutdownLoop_fail (env : Env) (n : String) (rest : List String) (s : SysState)
    (m : ModuleDef) (hm : lookupA n env.modules = some m) (hs : m.shutdown = some false) :
    shutdownLoop env (n :: rest) s =
      shutdownLoop env rest
        { s with trace := (s.trace ++ [Event.shutdownRun n]) ++ [Event.shutdownFailed n] } := by
  have hcond : ¬(false = true) := by simp
  simp only [shutdownLoop, hm, hs]
  rw [if_neg hcond]

theorem shutdownTraceOf_nil (env : Env) : shutdownTraceOf env [] = [] := rfl

theorem shutdownTraceOf_noCb (env : Env) (n : String) (rest : List String)
    (m : ModuleDef) (hm : lookupA n env.modules = some m) (hs : m.shutdown = none) :
    shutdownTraceOf env (n :: rest) = shutdownTraceOf env rest := by
  simp only [shutdownTraceOf, hm, hs, List.nil_append]

theorem shutdownTraceOf_ok (env : Env) (n : String) (rest : List String)
    (m : ModuleDef) (hm : lookupA n env.modules = some m) (hs : m.shutdown = some true) :
    shutdownTraceOf env (n :: rest) = Event.shutdownRun n :: shutdownTraceOf env rest := by
  simp only [shutdownTraceOf, hm, hs, List.cons_append, List.nil_append]

theorem shutdownTraceOf_fail (env : Env) (n : String) (rest : List String)
    (m : ModuleDef) (hm : lookupA n env.modules = some m) (hs : m.shutdown = some false) :
    shutdownTraceOf env (n :: rest) =
      Event.shutdownRun n :: Event.shutdownFailed n :: shutdownTraceOf env rest := by
  simp only [shutdownTraceOf, hm, hs, List.cons_append, List.nil_append]

/-- When every visited name is registered, the shutdown walk completes
without an uncaught error, visits the names in list order, and only
appends `shutdownRun`/`shutdownFailed` events — a module whose `shutdown`
throws is recorded as failed and the walk continues. -/
theorem shutdownLoop_spec (env : Env) :
    ∀ (L : List String) (s : SysState),
      (∀ n ∈ L, ∃ m, lookupA n env.modules = some m) →
      shutdownLoop env L s =
        ({ s with trace := s.trace ++ shutdownTraceOf env L }, none) := by
  intro L
  induction L with
  | nil =>
    intro s h
    rw [shutdownLoop_nil, shutdownTraceOf_nil, List.append_nil]
  | cons d rest ih =>
    intro s h
    obtain ⟨m, hm⟩ := h d (List.mem_cons_self d rest)
    have hrest : ∀ x ∈ rest, ∃ mx, lookupA x env.modules = some mx :=
      fun x hx => h x (List.mem_cons_of_mem d hx)
    cases hs : m.shutdown with
    | none =>
      rw [shutdownLoop_noCb env d rest s m hm hs, shutdownTraceOf_noCb env d rest m hm hs]
      exact ih s hrest
    | some b =>
      cases b with
      | true =>
        rw [shutdownLoop_ok env d rest s m hm hs,
          shutdownTraceOf_ok env d rest m hm hs,
          ih { s with trace := s.trace ++ [Event.shutdownRun d] } hrest,
          List.append_assoc]
        rfl
      | false =>
        rw [shutdownLoop_fail env d rest s m hm hs,
          shutdownTraceOf_fail env d rest m hm hs,
          ih { s with trace :=
            (s.trace ++ [Event.shutdownRun d]) ++ [Event.shutdownFailed d] } hrest,
          List.append_assoc, List.append_assoc]
        rfl

/-- Every name in the visited list whose module has a `shutdown` callback
gets its `shutdownRun` event in the walk's trace — regardless of other
modules' failures. -/
theorem shutdownTraceOf_run_mem (env : Env) :
    ∀ (L : List String) (n : String), n ∈ L → ∀ m, lookupA n env.modules = some m →
      m.shutdown.isSome = true → Event.shutdownRun n ∈ shutdownTraceOf env L := by
  intro L
  induction L with
  | nil =>
    intro n hn
    cases hn
  | cons d rest ih =>
    intro n hn m hm hs
    rcases List.mem_cons.mp hn with rfl | hn'
    · cases hsd : m.shutdown with
      | none =>
        rw [hsd] at hs
        exact Bool.noConfusion hs
      | some b =>
        cases b with
        | true =>
          rw [shutdownTraceOf_ok env n rest m hm hsd]
          exact List.mem_cons_self _ _
        | false =>
          rw [shutdownTraceOf_fail env n rest m hm hsd]
          exact List.mem_cons_self _ _
    · simp only [shutdownTraceOf]
      exact List.mem_append.mpr (Or.inr (ih n hn' m hm hs))

/-- Stage decomposition of `shutdownModules` when the beforeShutdown
hooks all pass and the walk raises no uncaught error. -/
theorem shutdownModules_allPass (env : Env) (s sL : SysState)
    (hb : ∀ hk ∈ hooksOf env "beforeShutdown", hk none = false)
    (hl : shutdownLoop env s.initialized.reverse
      { s with trace := s.trace ++ hookTraceOf env "beforeShutdown" none } = (sL, none)) :
    shutdownModules env s =
      triggerLifecycleHooks env "afterShutdown" none { sL with initialized := [] } := by
  have t1 := trigger_allPass env "beforeShutdown" none s hb
  simp only [shutdownModules, t1, hl]

/-- C5: given that every initialized name is registered (the system's own
invariant — an unregistered name would raise an uncaught TypeError) and
the shutdown hooks themselves do not throw, `shutdownModules` fires the
beforeShutdown hooks, walks the Initialized Set in exact reverse of the
recorded initialization order invoking each present `shutdown` callback —
a module whose `shutdown` throws is recorded as failed and does NOT stop
the remaining (earlier-initialized) modules from being shut down — then
empties the Initialized Set and fires the afterShutdown hooks; every
initialized module with a `shutdown` callback has its `shutdownRun` event
in the walk's trace segment. -/
theorem c5_shutdown_reverse_isolated (env : Env) (s : SysState)
    (hreg : ∀ n ∈ s.initialized, ∃ m, lookupA n env.modules = some m)
    (hb : ∀ hk ∈ hooksOf env "beforeShutdown", hk none = false)
    (ha : ∀ hk ∈ hooksOf env "afterShutdown", hk none = false) :
    shutdownModules env s =
      ({ initialized := [], services := s.services,
         trace := s.trace ++ hookTraceOf env "beforeShutdown" none ++
           shutdownTraceOf env s.initialized.reverse ++
           hookTraceOf env "afterShutdown" none }, none) ∧
    (∀ n ∈ s.initialized, ∀ m, lookupA n env.modules = some m →
      m.shutdown.isSome = true →
      Event.shutdownRun n ∈ shutdownTraceOf env s.initialized.reverse) := by
  constructor
  · have hl := shutdownLoop_spec env s.initialized.reverse
      { s with trace := s.trace ++ hookTraceOf env "beforeShutdown" none }
      (fun n hn => hreg n (List.mem_reverse.mp hn))
    rw [shutdownModules_allPass env s _ hb hl,
      trigger_allPass env "afterShutdown" none _ ha]
  · intro n hn m hm hs
    exact shutdownTraceOf_run_mem env s.initialized.reverse n
      (List.mem_reverse.mpr hn) m hm hs

/-- C5 witness: shutting down `envSd` from the state whose Initialized
Set records the order `a, b, c` visits `c`, then `b` (whose `shutdown`
throws and is recorded as failed), then still `a`; the Initialized Set is
left empty. -/
theorem c5_witness :
    shutdownModules envSd
        { initialized := ["a", "b", "c"], services := [], trace := [] } =
      ({ initialized := [], services := [],
         trace := [Event.shutdownRun "c", Event.shutdownRun "b",
                   Event.shutdownFailed "b", Event.shutdownRun "a"] }, none) ∧
    (∀ n ∈ ["a", "b", "c"], ∀ m, lookupA n envSd.modules = some m →
      m.shutdown.isSome = true →
      Event.shutdownRun n ∈ shutdownTraceOf envSd ["c", "b", "a"]) :=
  c5_shutdown_reverse_isolated envSd
    { initialized := ["a", "b", "c"], services := [], trace := [] }
    (by
      intro n hn
      simp only [List.mem_cons, List.not_mem_nil, or_false] at hn
      rcases hn with rfl | rfl | rfl
      · exact ⟨_, rfl⟩
      · exact ⟨_, rfl⟩
      · exact ⟨_, rfl⟩)
    (fun hk hkm => absurd hkm (List.not_mem_nil hk))
    (fun hk hkm => absurd hkm (List.not_mem_nil hk))

theorem stepInit_none_eq (name : String) (m : ModuleDef) (s : SysState)
    (h : m.initFn = none) : stepInit name m s = (s, none) := by
  simp only [stepInit, h]

theorem stepInit_true_eq (name : String) (m : ModuleDef) (s : SysState)
    (h : m.initFn = some true) :
    stepInit name m s = ({ s with trace := s.trace ++ [Event.initRun name] }, none) := by
  simp only [stepInit, h, if_true]

theorem stepRoutes_none_eq (env : Env) (name : String) (m : ModuleDef) (s : SysState)
    (h : m.routes = none) : stepRoutes env name m s = (s, none) := by
  simp only [stepRoutes, h]

theorem stepRoutes_noApp_eq (env : Env) (name : String) (m : ModuleDef) (s : SysState)
    (b : Bool) (h : m.routes = some b) (ha : env.hasApp = false) :
    stepRoutes env name m s = (s, none) := by
  simp only [stepRoutes, h, ha]

theorem stepRoutes_true_eq (env : Env) (name : String) (m : ModuleDef) (s : SysState)
    (h : m.routes = some true) (ha : env.hasApp = true) :
    stepRoutes env name m s =
      ({ s with trace := s.trace ++ [Event.routesRun name] }, none) := by
  simp only [stepRoutes, h, ha, if_true]

/-- A module whose `initialize` does not throw passes the initialize
step. -/
theorem stepInit_ok_ex (name : String) (m : ModuleDef) (s : SysState)
    (hi : m.initFn ≠ some false) : ∃ sB, stepInit name m s = (sB, none) := by
  cases hi0 : m.initFn with
  | none => exact ⟨s, stepInit_none_eq name m s hi0⟩
  | some b =>
    cases b with
    | true => exact ⟨_, stepInit_true_eq name m s hi0⟩
    | false => exact absurd hi0 hi

/-- A module whose `routes` callback does not throw (or is never invoked)
passes the route-mounting step. -/
theorem stepRoutes_ok_ex (env : Env) (name : String) (m : ModuleDef) (s : SysState)
    (hr : ¬(m.routes = some false ∧ env.hasApp = true)) :
    ∃ sC, stepRoutes env name m s = (sC, none) := by
  cases hro : m.routes with
  | none => exact ⟨s, stepRoutes_none_eq env name m s hro⟩
  | some b =>
    cases hha : env.hasApp with
    | false => exact ⟨s, stepRoutes_noApp_eq env name m s b hro hha⟩
    | true =>
      cases b with
      | true => exact ⟨_, stepRoutes_true_eq env name m s hro hha⟩
      | false => exact absurd ⟨hro, hha⟩ hr

/-- Stage decomposition of the `try` block when the beforeInit hooks, the
`initialize` callback and route mounting all pass: the body reduces to
marking plus the afterInit hooks. -/
theorem runBody_steps (env : Env) (name : String) (m : ModuleDef) (s sA sB sC : SysState)
    (h1 : triggerLifecycleHooks env "beforeInit" (some name) s = (sA, none))
    (h2 : stepInit name m sA = (sB, none))
    (h3 : stepRoutes env name m sB = (sC, none)) :
    runBody env name m s =
      triggerLifecycleHooks env "afterInit" (some name) (stepSvcMark name m sC) := by
  show andThen (triggerLifecycleHooks env "beforeInit" (some name) s)
      (fun s1 => andThen (stepInit name m s1)
        (fun s2 => andThen (stepRoutes env name m s2)
          (fun s3 => triggerLifecycleHooks env "afterInit" (some name)
            (stepSvcMark name m s3)))) =
    triggerLifecycleHooks env "afterInit" (some name) (stepSvcMark name m sC)
  rw [h1]
  show andThen (stepInit name m sA)
      (fun s2 => andThen (stepRoutes env name m s2)
        (fun s3 => triggerLifecycleHooks env "afterInit" (some name)
          (stepSvcMark name m s3))) = _
  rw [h2]
  show andThen (stepRoutes env name m sB)
      (fun s3 => triggerLifecycleHooks env "afterInit" (some name)
        (stepSvcMark name m s3)) = _
  rw [h3]
  rfl

/-- When some afterInit hook throws for the module, the tail of the body
(marking followed by the afterInit hooks) ends in the hook error — but
only after the module has been added to the Initialized Set and its
`marked` event recorded. -/
theorem afterInit_fail_tail (env : Env) (name : String) (m : ModuleDef) (sC : SysState)
    (ha : ∃ hk ∈ hooksOf env "afterInit", hk (some name) = true) :
    ∃ s2, triggerLifecycleHooks env "afterInit" (some name) (stepSvcMark name m sC) =
        (s2, some { kind := ErrKind.hookFailed "afterInit", moduleTag := none }) ∧
      name ∈ s2.initialized ∧ Event.marked name ∈ s2.trace := by
  obtain ⟨T, hTr, hevT, hmk, hmem, hor, hsvcne, hsvcall⟩ := stepSvcMark_spec name m sC
  cases ht : triggerLifecycleHooks env "afterInit" (some name) (stepSvcMark name m sC) with
  | mk s2 oe =>
    have h2 := trigger_someFail env "afterInit" (some name) (stepSvcMark name m sC) ha
    rw [ht] at h2
    have hoe : oe = some { kind := ErrKind.hookFailed "afterInit", moduleTag := none } := h2
    have hst := trigger_state env "afterInit" (some name) (stepSvcMark name m sC)
    rw [ht] at hst
    obtain ⟨hI, hS, T2, hT2, hallT2⟩ := hst
    have hI2 : s2.initialized = (stepSvcMark name m sC).initialized := hI
    have hT22 : s2.trace = (stepSvcMark name m sC).trace ++ T2 := hT2
    refine ⟨s2, ?_, ?_, ?_⟩
    · rw [hoe]
    · rw [hI2]
      exact hmem
    · rw [hT22]
      refine List.mem_append.mpr (Or.inl ?_)
      rw [hTr]
      exact List.mem_append.mpr (Or.inr hmk)

/-- When the earlier stages of the body pass but an afterInit hook throws
for the module, `runBody` returns the (still untagged) hook error from a
state in which the module is already initialized and marked. -/
theorem runBody_afterInit_fail (env : Env) (name : String) (m : ModuleDef) (s : SysState)
    (hb : ∀ hk ∈ hooksOf env "beforeInit", hk (some name) = false)
    (hi : m.initFn ≠ some false)
    (hr : ¬(m.routes = some false ∧ env.hasApp = true))
    (ha : ∃ hk ∈ hooksOf env "afterInit", hk (some name) = true) :
    ∃ s2, runBody env name m s =
        (s2, some { kind := ErrKind.hookFailed "afterInit", moduleTag := none }) ∧
      name ∈ s2.initialized ∧ Event.marked name ∈ s2.trace := by
  have t1 := trigger_allPass env "beforeInit" (some name) s hb
  obtain ⟨sB, h2⟩ := stepInit_ok_ex name m
    { s with trace := s.trace ++ hookTraceOf env "beforeInit" (some name) } hi
  obtain ⟨sC, h3⟩ := stepRoutes_ok_ex env name m sB hr
  have hrb := runBody_steps env name m s _ sB sC t1 h2 h3
  obtain ⟨s2, heq, hm1, hm2⟩ := afterInit_fail_tail env name m sC ha
  refine ⟨s2, ?_, hm1, hm2⟩
  rw [hrb]
  exact heq

/-- C10: if an afterInit lifecycle hook throws for module M (whose
earlier stages — beforeInit hooks, `initialize`, route mounting — all
pass), the `initializeModule` call returns the hook error tagged with M's
name by the catch block, yet M has already been added to the Initialized
Set (its `marked` event recorded) and stays there; the global loop
rethrows the tagged error unchanged, rejecting the whole call; and a
subsequent shutdown walk over that Initialized Set still contains M's
`shutdownRun` whenever M has a `shutdown` callback. -/
theorem c10_afterInit_hook_failure (env : Env) (f : Nat) (M : String) (mM : ModuleDef)
    (s sD : SysState)
    (hM : lookupA M env.modules = some mM)
    (hmem : M ∉ s.initialized)
    (hdeps : initDeps env f M (mM.dependencies.getD []) s = (sD, Res.ok))
    (hb : ∀ hk ∈ hooksOf env "beforeInit", hk (some M) = false)
    (hi : mM.initFn ≠ some false)
    (hr : ¬(mM.routes = some false ∧ env.hasApp = true))
    (ha : ∃ hk ∈ hooksOf env "afterInit", hk (some M) = true) :
    ∃ s2, initModule env (f + 1) M s =
        (s2, .err { kind := ErrKind.hookFailed "afterInit", moduleTag := some M }) ∧
      M ∈ s2.initialized ∧ Event.marked M ∈ s2.trace ∧
      (∀ rest, initAllNames env (f + 1) (M :: rest) s =
        (s2, .err { kind := ErrKind.hookFailed "afterInit", moduleTag := some M })) ∧
      (mM.shutdown.isSome = true →
        Event.shutdownRun M ∈ shutdownTraceOf env s2.initialized.reverse) := by
  obtain ⟨s2, heq, hm1, hm2⟩ := runBody_afterInit_fail env M mM sD hb hi hr ha
  have hmod : initModule env (f + 1) M s =
      (s2, .err { kind := ErrKind.hookFailed "afterInit", moduleTag := some M }) :=
    initModule_bodyErr env f M s hmem mM hM sD hdeps s2 _ heq
  refine ⟨s2, hmod, hm1, hm2, ?_, ?_⟩
  · intro rest
    exact initAllNames_consFail env (f + 1) M rest s s2 _ hmod (by intro hc; cases hc)
  · intro hsd
    exact shutdownTraceOf_run_mem env s2.initialized.reverse M
      (List.mem_reverse.mpr hm1) mM hM hsd

/-- C10 witness: in `envC10` the single module `M` initializes
successfully but the registered afterInit hook throws for it: the call
rejects with the hook error tagged `"M"`, `M` stays in the Initialized
Set with its `marked` event recorded, the loop rethrows the same error,
and the shutdown walk still visits `M`. -/
theorem c10_witness :
    ∃ s2, initModule envC10 10 "M" { initialized := [], services := [], trace := [] } =
        (s2, .err { kind := ErrKind.hookFailed "afterInit", moduleTag := some "M" }) ∧
      "M" ∈ s2.initialized ∧ Event.marked "M" ∈ s2.trace ∧
      (∀ rest, initAllNames envC10 10 ("M" :: rest)
          { initialized := [], services := [], trace := [] } =
        (s2, .err { kind := ErrKind.hookFailed "afterInit", moduleTag := some "M" })) ∧
      (({ id := some "M", name := some "M", initFn := some true,
          shutdown := some true } : ModuleDef).shutdown.isSome = true →
        Event.shutdownRun "M" ∈ shutdownTraceOf envC10 s2.initialized.reverse) :=
  c10_afterInit_hook_failure envC10 9 "M"
    { id := some "M", name := some "M", initFn := some true, shutdown := some true }
    { initialized := [], services := [], trace := [] }
    { initialized := [], services := [], trace := [] }
    rfl (by decide) rfl
    (fun hk hkm => absurd hkm (List.not_mem_nil hk))
    (by decide) (by decide)
    ⟨fun mn => mn == some "M", List.mem_cons_self _ _, rfl⟩

end ModSys
